import Mathlib

/-!
Shallow embedding of the post-office queue simulation engine
(`src/queueSimulator.py`) and proofs about the claims of its specification.

Times and probabilities are modelled as rationals (`ℚ`).  The Python global
random stream is modelled as an explicit list of draws `List ℚ`, each element
standing for one `random.random()` sample in `[0, 1)`; `random.uniform(a, b)`
is faithfully `a + (b - a) * draw`.  Python `None` becomes `Option`, and the
truthiness tests of the source (`if self.serviceStartTime:`) are embedded as
written, i.e. they also reject the value `0`.
-/

namespace PoQueueSim

/-- Dispatch strategies for server assignment (`DispatchStrategy` enum). -/
inductive DispatchStrategy where
  | longestWaitFirst
  | shortestJobFirst
  | roundRobin
  | priorityOrder
deriving DecidableEq

/-- Server states (`ServerState` enum).  The source declares `IDLE` but never
assigns it. -/
inductive ServerState where
  | idle
  | busy
  | spare
deriving DecidableEq

/-- Terminal customer outcome (the strings `'completed'` / `'abandoned'`). -/
inductive Outcome where
  | completed
  | abandoned
deriving DecidableEq

/-- A customer record (`Customer.__init__`). -/
structure Customer where
  customerId : Nat
  serviceType : String
  arrivalTime : ℚ
  queueJoinTime : ℚ
  serviceStartTime : Option ℚ
  serviceEndTime : Option ℚ
  serverId : Option Nat
  boothId : Option Nat
  outcome : Option Outcome
deriving DecidableEq

/-- Embeds `Customer.getWaitDuration`.  The source guards with the Python truthiness
test `if self.serviceStartTime:`, which is false both for `None` and for the
number `0`. -/
def Customer.getWaitDuration (c : Customer) : Option ℚ :=
  match c.serviceStartTime with
  | some t => if t ≠ 0 then some (t - c.queueJoinTime) else none
  | none => none

/-- Embeds `Customer.getServiceDuration`; truthiness test on both timestamps. -/
def Customer.getServiceDuration (c : Customer) : Option ℚ :=
  match c.serviceStartTime, c.serviceEndTime with
  | some t0, some t1 => if t0 ≠ 0 ∧ t1 ≠ 0 then some (t1 - t0) else none
  | _, _ => none

/-- A server (staff member). -/
structure Server where
  serverId : Nat
  state : ServerState
  currentCustomer : Option Customer
  currentBoothId : Option Nat
  serviceEndTime : Option ℚ
deriving DecidableEq

instance : Inhabited Server := ⟨⟨0, ServerState.spare, none, none, none⟩⟩

/-- Embeds `Server.startService`. -/
def Server.startService (s : Server) (c : Customer) (boothId : Nat)
    (serviceEndTime : ℚ) : Server :=
  { s with state := ServerState.busy, currentCustomer := some c,
           currentBoothId := some boothId, serviceEndTime := some serviceEndTime }

/-- Embeds `Server.finishService`: returns the served customer and clears the server. -/
def Server.finishService (s : Server) : Option Customer × Server :=
  (s.currentCustomer,
   { s with state := ServerState.spare, currentCustomer := none,
            currentBoothId := none, serviceEndTime := none })

/-- Embeds `Server.isAvailable`. -/
def Server.isAvailable (s : Server) : Bool :=
  s.state = ServerState.spare

/-- A service booth. -/
structure Booth where
  boothId : Nat
  occupied : Bool
  serverId : Option Nat
deriving DecidableEq

instance : Inhabited Booth := ⟨⟨0, false, none⟩⟩

/-- Embeds `Booth.assignServer`. -/
def Booth.assignServer (b : Booth) (sid : Nat) : Booth :=
  { b with occupied := true, serverId := some sid }

/-- Embeds `Booth.releaseServer` (the returned id is unused by the engine). -/
def Booth.releaseServer (b : Booth) : Booth :=
  { b with occupied := false, serverId := none }

/-- Embeds `Booth.isAvailable`. -/
def Booth.isAvailable (b : Booth) : Bool :=
  !b.occupied

/-- The whole mutable state of one `QueueSimulator` instance.  The Python
class attribute `Customer._nextId` is carried here as `nextCustomerId`. -/
structure SimState where
  numServers : Nat
  numBooths : Nat
  dispatchStrategy : DispatchStrategy
  timeAcceleration : ℚ
  abandonmentEnabled : Bool
  serviceTimes : List (String × ℚ)
  servers : List Server
  booths : List Booth
  queues : List (String × List Customer)
  simulationTime : ℚ
  running : Bool
  lastUpdateTime : Option ℚ
  totalCustomersServed : Nat
  totalCustomersAbandoned : Nat
  completedCustomers : List Customer
  abandonedCustomers : List Customer
  roundRobinIndex : Nat
  serviceTypesList : List String
  nextCustomerId : Nat
deriving DecidableEq

/-- The default service-time table of `QueueSimulator.__init__`. -/
def defaultServiceTimes : List (String × ℚ) :=
  [("standard_post", 2), ("passports", 5), ("parcels", 3)]

/-- Embeds `QueueSimulator.__init__`.  Here `serviceTimesArg` models the `serviceTimes`
parameter; the source uses `serviceTimes or {...}`, so both `None` and an
empty dict fall back to the default table.  The queue dictionary always has
exactly the three fixed keys, in insertion order. -/
def initState (numServers numBooths : Nat) (strategy : DispatchStrategy)
    (serviceTimesArg : Option (List (String × ℚ))) (timeAcceleration : ℚ)
    (abandonmentEnabled : Bool) : SimState :=
  { numServers := numServers
    numBooths := numBooths
    dispatchStrategy := strategy
    timeAcceleration := timeAcceleration
    abandonmentEnabled := abandonmentEnabled
    serviceTimes :=
      match serviceTimesArg with
      | none => defaultServiceTimes
      | some l => if l = [] then defaultServiceTimes else l
    servers := (List.range numServers).map
      (fun i => ⟨i, ServerState.spare, none, none, none⟩)
    booths := (List.range numBooths).map (fun i => ⟨i, false, none⟩)
    queues := [("standard_post", []), ("passports", []), ("parcels", [])]
    simulationTime := 0
    running := false
    lastUpdateTime := none
    totalCustomersServed := 0
    totalCustomersAbandoned := 0
    completedCustomers := []
    abandonedCustomers := []
    roundRobinIndex := 0
    serviceTypesList := ["standard_post", "passports", "parcels"]
    nextCustomerId := 1 }

/-- Lookup of a queue by service type (`self.queues[serviceType]` /
`serviceType not in self.queues`). -/
def lookupQueue (qs : List (String × List Customer)) (st : String) :
    Option (List Customer) :=
  match qs.find? (fun p => p.1 = st) with
  | some p => some p.2
  | none => none

/-- Replace the queue stored under a key, keeping dictionary order. -/
def setQueue (qs : List (String × List Customer)) (st : String)
    (q : List Customer) : List (String × List Customer) :=
  qs.map (fun p => if p.1 = st then (p.1, q) else p)

/-- Embeds `QueueSimulator.addCustomer`: `None` for an unknown service type,
otherwise a fresh customer appended to the tail of its queue. -/
def addCustomer (s : SimState) (serviceType : String) :
    Option Customer × SimState :=
  match lookupQueue s.queues serviceType with
  | none => (none, s)
  | some q =>
    let c : Customer :=
      ⟨s.nextCustomerId, serviceType, s.simulationTime, s.simulationTime,
       none, none, none, none, none⟩
    (some c,
     { s with queues := setQueue s.queues serviceType (q ++ [c]),
              nextCustomerId := s.nextCustomerId + 1 })

/-- Consume one sample from the random stream (`random.random()`); an
exhausted stream yields a default, which reachable uses never hit when
enough draws are supplied. -/
def takeDraw (draws : List ℚ) : ℚ × List ℚ :=
  match draws with
  | [] => (1, [])
  | d :: ds => (d, ds)

/-- Replace the element at one index of a list, like the in-place
`self.booths[boothId]` mutation; out-of-range indices are left alone (the
source would raise there, which never happens in reachable states). -/
def modifyAt {α : Type} : List α → Nat → (α → α) → List α
  | [], _, _ => []
  | x :: xs, 0, f => f x :: xs
  | x :: xs, Nat.succ n, f => x :: modifyAt xs n f

/-- Mark a customer completed at sweep time `t` (lines 202-203 of the source). -/
def markCompleted (t : ℚ) (c : Customer) : Customer :=
  { c with serviceEndTime := some t, outcome := some Outcome.completed }

/-- The loop body of `_checkCompletedServices`, iterating the server list in
order while releasing booths and collecting completed customers.  The test is
`server.state == ServerState.BUSY and self.simulationTime >= server.serviceEndTime`;
a busy server always carries a `serviceEndTime` and a customer in reachable
states, so the remaining patterns keep the server untouched.  The freed
server keeps iterating with the booth released and the customer recorded. -/
def completeSweep (t : ℚ) : List Server → List Booth →
    List Server × List Booth × List Customer
  | [], booths => ([], booths, [])
  | sv :: rest, booths =>
    match sv.state, sv.serviceEndTime, sv.currentCustomer with
    | ServerState.busy, some e, some c =>
      if e ≤ t then
        let booths' :=
          match sv.currentBoothId with
          | some b => modifyAt booths b Booth.releaseServer
          | none => booths
        let r := completeSweep t rest booths'
        ((Server.finishService sv).2 :: r.1, r.2.1, markCompleted t c :: r.2.2)
      else
        let r := completeSweep t rest booths
        (sv :: r.1, r.2.1, r.2.2)
    | _, _, _ =>
      let r := completeSweep t rest booths
      (sv :: r.1, r.2.1, r.2.2)

/-- Embeds `QueueSimulator._checkCompletedServices`. -/
def checkCompletedServices (s : SimState) : SimState :=
  let r := completeSweep s.simulationTime s.servers s.booths
  { s with servers := r.1, booths := r.2.1,
           completedCustomers := s.completedCustomers ++ r.2.2,
           totalCustomersServed := s.totalCustomersServed + r.2.2.length }

/-- The abandonment probability computed by `_checkAbandonments` lines
222-229: two sequential overriding `if`s, then a cap at `0.5`. -/
def abandonProb (waitTime : ℚ) : ℚ :=
  let p0 : ℚ := 0
  let p1 := if waitTime > 5 then (5 / 100) * (waitTime - 5) else p0
  let p2 := if waitTime > 10 then (15 / 100) * (waitTime - 5) else p1
  min p2 (1 / 2)

/-- The per-customer Bernoulli test of line 231:
`random.random() < abandonProb * (1.0 / self.timeAcceleration)`. -/
def abandonDecision (simTime accel : ℚ) (c : Customer) (d : ℚ) : Prop :=
  d < abandonProb (simTime - c.queueJoinTime) * (1 / accel)

instance (simTime accel : ℚ) (c : Customer) (d : ℚ) :
    Decidable (abandonDecision simTime accel c d) :=
  inferInstanceAs (Decidable (d < abandonProb (simTime - c.queueJoinTime) * (1 / accel)))

/-- Mark a customer abandoned at sweep time `t` (lines 232-233). -/
def markAbandoned (t : ℚ) (c : Customer) : Customer :=
  { c with outcome := some Outcome.abandoned, serviceEndTime := some t }

/-- One queue of `_checkAbandonments`: draw once per waiting customer in
order; return the customers kept (in order), the newly abandoned customers
(in order), and the rest of the random stream. -/
def abandonQueueSweep (simTime accel : ℚ) : List Customer → List ℚ →
    List Customer × List Customer × List ℚ
  | [], draws => ([], [], draws)
  | c :: rest, draws =>
    let p := takeDraw draws
    let r := abandonQueueSweep simTime accel rest p.2
    if abandonDecision simTime accel c p.1 then
      (r.1, markAbandoned simTime c :: r.2.1, r.2.2)
    else
      (c :: r.1, r.2.1, r.2.2)

/-- Embeds `_checkAbandonments` over all queues in dictionary order. -/
def abandonAllQueues (simTime accel : ℚ) : List (String × List Customer) →
    List ℚ → List (String × List Customer) × List Customer × List ℚ
  | [], draws => ([], [], draws)
  | (st, q) :: rest, draws =>
    let r1 := abandonQueueSweep simTime accel q draws
    let r2 := abandonAllQueues simTime accel rest r1.2.2
    ((st, r1.1) :: r2.1, r1.2.1 ++ r2.2.1, r2.2.2)

/-- Embeds `QueueSimulator._checkAbandonments`. -/
def checkAbandonments (s : SimState) (draws : List ℚ) : SimState × List ℚ :=
  let r := abandonAllQueues s.simulationTime s.timeAcceleration s.queues draws
  ({ s with queues := r.1,
            abandonedCustomers := s.abandonedCustomers ++ r.2.1,
            totalCustomersAbandoned := s.totalCustomersAbandoned + r.2.1.length },
   r.2.2)

/-- Embeds `self.serviceTimes.get(customer.serviceType, 3.0)`. -/
def lookupServiceTime (times : List (String × ℚ)) (st : String) : ℚ :=
  match times.find? (fun p => p.1 = st) with
  | some p => p.2
  | none => 3

/-- Embeds `QueueSimulator._selectLongestWaitFirst`: scan the head of every
non-empty queue in dictionary order, keeping the strictly largest wait
(initial best `-1`), then pop the winner. -/
def selectLongestWaitFirst (s : SimState) : Option Customer × SimState :=
  match s.queues.foldl
    (fun acc p =>
      match p.2 with
      | [] => acc
      | c :: _ =>
        let w := s.simulationTime - c.queueJoinTime
        match acc with
        | none => if w > -1 then some (w, p.1, c) else none
        | some b => if w > b.1 then some (w, p.1, c) else some b)
    none with
  | some b =>
    (some b.2.2,
     { s with queues :=
        setQueue s.queues b.2.1 ((lookupQueue s.queues b.2.1).getD []).tail })
  | none => (none, s)

/-- Embeds `QueueSimulator._selectShortestJobFirst`: strictly smallest configured
service time among queue heads (initial best `float('inf')`). -/
def selectShortestJobFirst (s : SimState) : Option Customer × SimState :=
  match s.queues.foldl
    (fun acc p =>
      match p.2 with
      | [] => acc
      | c :: _ =>
        let j := lookupServiceTime s.serviceTimes c.serviceType
        match acc with
        | none => some (j, p.1, c)
        | some b => if j < b.1 then some (j, p.1, c) else some b)
    none with
  | some b =>
    (some b.2.2,
     { s with queues :=
        setQueue s.queues b.2.1 ((lookupQueue s.queues b.2.1).getD []).tail })
  | none => (none, s)

/-- The `while attempts < len(self.serviceTypesList)` loop of
`_selectRoundRobin`, with the remaining attempt count as fuel.  Each
iteration reads the category under the cursor, advances the cursor modulo
the category count, and pops the head of that category's queue if non-empty. -/
def selectRoundRobinAux : Nat → SimState → Option Customer × SimState
  | 0, s => (none, s)
  | Nat.succ k, s =>
    let n := s.serviceTypesList.length
    let st := s.serviceTypesList.getD s.roundRobinIndex ""
    let s1 := { s with roundRobinIndex := (s.roundRobinIndex + 1) % n }
    match lookupQueue s1.queues st with
    | some (c :: restq) => (some c, { s1 with queues := setQueue s1.queues st restq })
    | _ => selectRoundRobinAux k s1

/-- Embeds `QueueSimulator._selectRoundRobin`. -/
def selectRoundRobin (s : SimState) : Option Customer × SimState :=
  selectRoundRobinAux s.serviceTypesList.length s

/-- The fixed precedence list of `_selectPriorityOrder`. -/
def priorityOrderList : List String :=
  ["passports", "parcels", "standard_post"]

/-- The `for serviceType in priorityOrder` loop of `_selectPriorityOrder`. -/
def selectPriorityOrderAux (s : SimState) : List String →
    Option Customer × SimState
  | [] => (none, s)
  | st :: rest =>
    match lookupQueue s.queues st with
    | some (c :: restq) =>
      (some c, { s with queues := setQueue s.queues st restq })
    | _ => selectPriorityOrderAux s rest

/-- Embeds `QueueSimulator._selectPriorityOrder`. -/
def selectPriorityOrder (s : SimState) : Option Customer × SimState :=
  selectPriorityOrderAux s priorityOrderList

/-- Embeds `QueueSimulator._selectNextCustomer`. -/
def selectNextCustomer (s : SimState) : Option Customer × SimState :=
  match s.dispatchStrategy with
  | DispatchStrategy.longestWaitFirst => selectLongestWaitFirst s
  | DispatchStrategy.shortestJobFirst => selectShortestJobFirst s
  | DispatchStrategy.roundRobin => selectRoundRobin s
  | DispatchStrategy.priorityOrder => selectPriorityOrder s

/-- Positions of the available (spare) servers in list order, modelling
`[s for s in self.servers if s.isAvailable()]` with `pop(0)`. -/
def availableServerIdx (servers : List Server) : List Nat :=
  (servers.enum.filter (fun p => p.2.isAvailable)).map (fun p => p.1)

/-- Positions of the available (unoccupied) booths in list order. -/
def availableBoothIdx (booths : List Booth) : List Nat :=
  (booths.enum.filter (fun p => p.2.isAvailable)).map (fun p => p.1)

/-- The `while availableServers and availableBooths` loop of
`_assignServersToCustomers`.  One `random.uniform(0.8, 1.2)` sample — i.e.
`0.8 + 0.4 * draw` — is consumed per assignment. -/
def assignLoop : SimState → List ℚ → List Nat → List Nat → SimState × List ℚ
  | s, draws, si :: restS, bi :: restB =>
    match selectNextCustomer s with
    | (none, s') => (s', draws)
    | (some c, s') =>
      let p := takeDraw draws
      let sv := s'.servers.getD si default
      let bo := s'.booths.getD bi default
      let serviceTime :=
        lookupServiceTime s'.serviceTimes c.serviceType * (8 / 10 + (4 / 10) * p.1)
      let serviceEnd := s'.simulationTime + serviceTime
      let c' := { c with serviceStartTime := some s'.simulationTime,
                         serverId := some sv.serverId,
                         boothId := some bo.boothId }
      let s'' := { s' with
        servers := modifyAt s'.servers si
          (fun v => Server.startService v c' bo.boothId serviceEnd),
        booths := modifyAt s'.booths bi (fun b => Booth.assignServer b sv.serverId) }
      assignLoop s'' p.2 restS restB
  | s, draws, _, _ => (s, draws)

/-- Embeds `QueueSimulator._assignServersToCustomers`. -/
def assignServersToCustomers (s : SimState) (draws : List ℚ) :
    SimState × List ℚ :=
  assignLoop s draws (availableServerIdx s.servers) (availableBoothIdx s.booths)

/-- Embeds `QueueSimulator.update`: `now` is the sampled wall-clock time
(`time.time()`), `draws` the random stream consumed by this tick. -/
def update (s : SimState) (now : ℚ) (draws : List ℚ) : SimState × List ℚ :=
  match s.lastUpdateTime with
  | none => ({ s with lastUpdateTime := some now }, draws)
  | some last =>
    let realDelta := now - last
    let simDelta := realDelta * s.timeAcceleration / 60
    let s1 := { s with simulationTime := s.simulationTime + simDelta,
                       lastUpdateTime := some now }
    let s2 := checkCompletedServices s1
    let r :=
      if s.abandonmentEnabled then checkAbandonments s2 draws else (s2, draws)
    assignServersToCustomers r.1 r.2

/-- Embeds `QueueSimulator.getQueueLengths`. -/
def getQueueLengths (s : SimState) : List (String × Nat) :=
  s.queues.map (fun p => (p.1, p.2.length))

/-- Embeds the `ServerState.value` strings. -/
def ServerState.value : ServerState → String
  | ServerState.idle => "idle"
  | ServerState.busy => "busy"
  | ServerState.spare => "spare"

/-- One per-server record of `getServerStates`. -/
structure ServerStateView where
  serverId : Nat
  state : String
  boothId : Option Nat
  customerId : Option Nat
  serviceType : Option String
  timeRemaining : ℚ
deriving DecidableEq

/-- The dictionary built for one server by `getServerStates`; the
`timeRemaining` entry is `max(0, s.serviceEndTime - self.simulationTime) if
s.serviceEndTime else 0`, so an unset or zero end time yields `0`. -/
def serverView (simTime : ℚ) (sv : Server) : ServerStateView :=
  { serverId := sv.serverId
    state := sv.state.value
    boothId := sv.currentBoothId
    customerId := sv.currentCustomer.map Customer.customerId
    serviceType := sv.currentCustomer.map Customer.serviceType
    timeRemaining :=
      match sv.serviceEndTime with
      | some e => if e ≠ 0 then max 0 (e - simTime) else 0
      | none => 0 }

/-- Embeds `QueueSimulator.getServerStates`. -/
def getServerStates (s : SimState) : List ServerStateView :=
  s.servers.map (serverView s.simulationTime)

/-- One record of `getBoothStates`. -/
structure BoothStateView where
  boothId : Nat
  occupied : Bool
  serverId : Option Nat
deriving DecidableEq

/-- Embeds `QueueSimulator.getBoothStates`. -/
def getBoothStates (s : SimState) : List BoothStateView :=
  s.booths.map (fun b => ⟨b.boothId, b.occupied, b.serverId⟩)

/-- The record returned by `getStatistics`. -/
structure Statistics where
  totalCustomers : Nat
  totalServed : Nat
  totalAbandoned : Nat
  avgWaitTime : ℚ
  avgServiceTime : ℚ
  simulationTime : ℚ
deriving DecidableEq

/-- Embeds `QueueSimulator.getStatistics`.  The idiom `c.getWaitDuration() or 0` collapses
both `None` and `0` to `0`, embedded as `Option.getD 0`. -/
def getStatistics (s : SimState) : Statistics :=
  let totalCustomers := s.completedCustomers.length + s.abandonedCustomers.length
  if totalCustomers = 0 then
    { totalCustomers := 0, totalServed := 0, totalAbandoned := 0,
      avgWaitTime := 0, avgServiceTime := 0, simulationTime := s.simulationTime }
  else
    { totalCustomers := totalCustomers
      totalServed := s.totalCustomersServed
      totalAbandoned := s.totalCustomersAbandoned
      avgWaitTime :=
        (s.completedCustomers.map (fun c => (Customer.getWaitDuration c).getD 0)).sum /
          (max s.completedCustomers.length 1 : ℕ)
      avgServiceTime :=
        (s.completedCustomers.map (fun c => (Customer.getServiceDuration c).getD 0)).sum /
          (max s.completedCustomers.length 1 : ℕ)
      simulationTime := s.simulationTime }

/-- Embeds `QueueSimulator.reset`: note that `roundRobinIndex` and `running` are
not touched by the source. -/
def reset (s : SimState) : SimState :=
  { s with
    servers := s.servers.map (fun sv =>
      { sv with state := ServerState.spare, currentCustomer := none,
                currentBoothId := none, serviceEndTime := none })
    booths := s.booths.map (fun b => { b with occupied := false, serverId := none })
    queues := s.queues.map (fun p => (p.1, []))
    simulationTime := 0
    lastUpdateTime := none
    totalCustomersServed := 0
    totalCustomersAbandoned := 0
    completedCustomers := []
    abandonedCustomers := []
    nextCustomerId := 1 }

/-- The states reachable from construction through the public entry points:
customer arrival, a tick with arbitrary wall-clock sample and random draws,
and reset. -/
inductive Reachable : SimState → Prop where
  | init : ∀ ns nb strat times accel ab,
      Reachable (initState ns nb strat times accel ab)
  | add : ∀ s st, Reachable s → Reachable (addCustomer s st).2
  | step : ∀ s now draws, Reachable s → Reachable (update s now draws).1
  | reset : ∀ s, Reachable s → Reachable (PoQueueSim.reset s)

/-- Modelled from the spec: the abandonment probability exactly as the
specification words it, `p = 0` for `wait ≤ 5`, `p = 0.05 (wait − 5)` for
`5 < wait ≤ 10`, `p = 0.15 (wait − 5)` for `wait > 10`; compared against the
probability the source computes. -/
def specAbandonProbability (wait : ℚ) : ℚ :=
  if wait ≤ 5 then 0
  else if wait ≤ 10 then (5 / 100) * (wait - 5)
  else (15 / 100) * (wait - 5)

/-- Iterate `selectNextCustomer` under RoundRobin a given number of times,
collecting the selected customers; used to state the fairness property. -/
def selectRRTimes : Nat → SimState → List Customer × SimState
  | 0, s => ([], s)
  | Nat.succ k, s =>
    match selectRoundRobin s with
    | (some c, s') =>
      let r := selectRRTimes k s'
      (c :: r.1, r.2)
    | (none, s') => ([], s')

/-- A one-server one-booth RoundRobin configuration used to exercise reset. -/
def rrDemoFresh : SimState :=
  initState 1 1 DispatchStrategy.roundRobin none 20 false

/-- A short pre-run on `rrDemoFresh` that serves one standard-post customer,
leaving the round-robin cursor at 1. -/
def rrDemoPreRun : SimState :=
  (update (update ((addCustomer rrDemoFresh "standard_post").2) 0 []).1 0 [1/2]).1

/-- The identical arrival/tick replay used to compare a fresh instance with
a reset instance: two arrivals, a reference tick, a tick to simulated minute
1 that assigns one customer, and a tick to simulated minute 7/2. -/
def rrReplay (s : SimState) : SimState :=
  let s1 := (addCustomer s "standard_post").2
  let s2 := (addCustomer s1 "parcels").2
  let s3 := (update s2 0 []).1
  let s4 := (update s3 3 [1/2]).1
  (update s4 (21/2) [1/2]).1

/-- A default simulator with a single waiting customer, for the statistics
conservation counterexample. -/
def statsDemoState : SimState :=
  (addCustomer (initState 5 4 DispatchStrategy.longestWaitFirst none 20 true)
    "standard_post").2

/-- States produced by feeding a wall clock that runs backwards: a tick at
wall time 100 followed by a tick at wall time 40. -/
def clockDemo1 : SimState :=
  (update (initState 1 1 DispatchStrategy.longestWaitFirst none 20 false)
    100 []).1

/-- Second tick of the backwards-clock scenario. -/
def clockDemo2 : SimState :=
  (update clockDemo1 40 []).1

/-- A fresh default-like simulator whose wall-clock reference is already
recorded at wall time 2. -/
def clockDemoRef : SimState :=
  { initState 1 1 DispatchStrategy.longestWaitFirst none 20 false with
      lastUpdateTime := some 2 }

/-- A customer whose service started at simulated time 0 and ended at time 2;
exercises the truthiness guards of the duration accessors. -/
def zeroStartCustomer : Customer :=
  ⟨1, "standard_post", 0, 0, some 0, some 2, none, none, none⟩


/-- The first customer of the replay scenario (standard post, arrival 0). -/
def rrCu1 : Customer := ⟨1, "standard_post", 0, 0, none, none, none, none, none⟩

/-- The second customer of the replay scenario (parcels, arrival 0). -/
def rrCu2 : Customer := ⟨2, "parcels", 0, 0, none, none, none, none, none⟩

/-- State `rrDemoFresh` after the first arrival. -/
def rrP1 : SimState :=
  { rrDemoFresh with
      queues := [("standard_post", [rrCu1]), ("passports", []), ("parcels", [])],
      nextCustomerId := 2 }

/-- State `rrDemoFresh` after both arrivals. -/
def rrP2 : SimState :=
  { rrDemoFresh with
      queues := [("standard_post", [rrCu1]), ("passports", []), ("parcels", [rrCu2])],
      nextCustomerId := 3 }

/-- The replay state after the reference tick. -/
def rrP3 : SimState := { rrP2 with lastUpdateTime := some 0 }

/-- Fresh-side replay after the tick to simulated minute 1: the cursor was at
0, so the standard-post customer is assigned (service ends at minute 3). -/
def rrP4 : SimState :=
  { rrDemoFresh with
      servers := [⟨0, ServerState.busy,
        some ⟨1, "standard_post", 0, 0, some 1, none, some 0, some 0, none⟩,
        some 0, some 3⟩],
      booths := [⟨0, true, some 0⟩],
      queues := [("standard_post", []), ("passports", []), ("parcels", [rrCu2])],
      simulationTime := 1,
      lastUpdateTime := some 3,
      roundRobinIndex := 1,
      nextCustomerId := 3 }

/-- Fresh-side replay after the tick to simulated minute 7/2: the standard
post service (end 3) has completed and the parcels customer is in service. -/
def rrP5 : SimState :=
  { rrDemoFresh with
      servers := [⟨0, ServerState.busy,
        some ⟨2, "parcels", 0, 0, some (7/2), none, some 0, some 0, none⟩,
        some 0, some (13/2)⟩],
      booths := [⟨0, true, some 0⟩],
      queues := [("standard_post", []), ("passports", []), ("parcels", [])],
      simulationTime := 7/2,
      lastUpdateTime := some (21/2),
      totalCustomersServed := 1,
      completedCustomers :=
        [⟨1, "standard_post", 0, 0, some 1, some (7/2), some 0, some 0,
          some Outcome.completed⟩],
      roundRobinIndex := 0,
      nextCustomerId := 3 }

/-- The pre-run state after its reference tick. -/
def rrA2 : SimState := { rrP1 with lastUpdateTime := some 0 }

/-- The pre-run state after its assignment tick: server 0 serves the
standard-post customer and the round-robin cursor has moved to 1. -/
def rrA3 : SimState :=
  { rrDemoFresh with
      servers := [⟨0, ServerState.busy,
        some ⟨1, "standard_post", 0, 0, some 0, none, some 0, some 0, none⟩,
        some 0, some 2⟩],
      booths := [⟨0, true, some 0⟩],
      lastUpdateTime := some 0,
      roundRobinIndex := 1,
      nextCustomerId := 2 }

/-- What `reset` actually produces from `rrA3`: everything back to the
construction state except the round-robin cursor, which stays at 1. -/
def rrQ0 : SimState := { rrDemoFresh with roundRobinIndex := 1 }

/-- Reset-side replay after the first arrival. -/
def rrQ1 : SimState := { rrP1 with roundRobinIndex := 1 }

/-- Reset-side replay after both arrivals. -/
def rrQ2 : SimState := { rrP2 with roundRobinIndex := 1 }

/-- Reset-side replay after the reference tick. -/
def rrQ3 : SimState := { rrP3 with roundRobinIndex := 1 }

/-- Reset-side replay after the tick to simulated minute 1: the cursor was at
1, so the parcels customer is assigned instead (service ends at minute 4),
and the standard-post customer keeps waiting. -/
def rrQ4 : SimState :=
  { rrDemoFresh with
      servers := [⟨0, ServerState.busy,
        some ⟨2, "parcels", 0, 0, some 1, none, some 0, some 0, none⟩,
        some 0, some 4⟩],
      booths := [⟨0, true, some 0⟩],
      queues := [("standard_post", [rrCu1]), ("passports", []), ("parcels", [])],
      simulationTime := 1,
      lastUpdateTime := some 3,
      roundRobinIndex := 0,
      nextCustomerId := 3 }

/-- Reset-side replay after the tick to simulated minute 7/2: the parcels
service (end 4) has not completed, so nothing is served yet. -/
def rrQ5 : SimState :=
  { rrQ4 with simulationTime := 7/2, lastUpdateTime := some (21/2) }

/-- A third customer for the round-robin fairness witness. -/
def rrCu3 : Customer := ⟨3, "passports", 0, 0, none, none, none, none, none⟩

/-- A RoundRobin simulator with one waiting customer in each category. -/
def rrFairDemo : SimState :=
  { rrDemoFresh with queues :=
      [("standard_post", [rrCu1]), ("passports", [rrCu3]), ("parcels", [rrCu2])] }

/-- Two states that agree on every field except possibly the queue contents
and the round-robin cursor; the footprint of `_selectNextCustomer`. -/
def EqExceptQueuesRR (a b : SimState) : Prop :=
  a.numServers = b.numServers ∧
  a.numBooths = b.numBooths ∧
  a.dispatchStrategy = b.dispatchStrategy ∧
  a.timeAcceleration = b.timeAcceleration ∧
  a.abandonmentEnabled = b.abandonmentEnabled ∧
  a.serviceTimes = b.serviceTimes ∧
  a.servers = b.servers ∧
  a.booths = b.booths ∧
  a.simulationTime = b.simulationTime ∧
  a.lastUpdateTime = b.lastUpdateTime ∧
  a.totalCustomersServed = b.totalCustomersServed ∧
  a.totalCustomersAbandoned = b.totalCustomersAbandoned ∧
  a.completedCustomers = b.completedCustomers ∧
  a.abandonedCustomers = b.abandonedCustomers ∧
  a.serviceTypesList = b.serviceTypesList ∧
  a.running = b.running ∧
  a.nextCustomerId = b.nextCustomerId


/-- The per-server effect of one completion sweep on the server itself:
a busy server whose stored end time has been reached is cleared, every
other server is untouched. -/
def stepServer (t : ℚ) (sv : Server) : Server :=
  match sv.state, sv.serviceEndTime, sv.currentCustomer with
  | ServerState.busy, some e, some _ =>
    if e ≤ t then (Server.finishService sv).2 else sv
  | _, _, _ => sv

/-- The booth-list effect of one server's completion-sweep step. -/
def headBooths (t : ℚ) (sv : Server) (B : List Booth) : List Booth :=
  match sv.state, sv.serviceEndTime, sv.currentCustomer with
  | ServerState.busy, some e, some _ =>
    if e ≤ t then
      match sv.currentBoothId with
      | some b => modifyAt B b Booth.releaseServer
      | none => B
    else B
  | _, _, _ => B

/-- This server's completion-sweep step releases booth `b`. -/
def ReleasesBooth (t : ℚ) (sv : Server) (b : Nat) : Prop :=
  sv.state = ServerState.busy ∧
  ∃ e c, sv.serviceEndTime = some e ∧ sv.currentCustomer = some c ∧
    e ≤ t ∧ sv.currentBoothId = some b

/-- Well-formedness of one server at position `i` of the server list: its id
is its index, and it is either spare with no customer/booth/end-time, or busy
with all three set and its booth occupied by it. -/
def ServerWf (booths : List Booth) (i : Nat) (sv : Server) : Prop :=
  sv.serverId = i ∧
  ((sv.state = ServerState.spare ∧ sv.currentCustomer = none ∧
    sv.currentBoothId = none ∧ sv.serviceEndTime = none) ∨
   (sv.state = ServerState.busy ∧ sv.currentCustomer.isSome = true ∧
    sv.serviceEndTime.isSome = true ∧
    ∃ b bo, sv.currentBoothId = some b ∧ booths.get? b = some bo ∧
      bo.occupied = true ∧ bo.serverId = some i))

/-- Well-formedness of one booth at position `b`: its id is its index, an
occupied booth is occupied by exactly the busy server it names, and an
unoccupied booth names no server. -/
def BoothWf (servers : List Server) (b : Nat) (bo : Booth) : Prop :=
  bo.boothId = b ∧
  (bo.occupied = true →
    ∃ j sv, servers.get? j = some sv ∧ sv.state = ServerState.busy ∧
      sv.currentBoothId = some b ∧ bo.serverId = some j) ∧
  (bo.occupied = false → bo.serverId = none)

/-- The server/booth occupancy invariant. -/
def Wf (servers : List Server) (booths : List Booth) : Prop :=
  (∀ i sv, servers.get? i = some sv → ServerWf booths i sv) ∧
  (∀ b bo, booths.get? b = some bo → BoothWf servers b bo)

end PoQueueSim

namespace PoQueueSim

/-! ### Basic lemmas -/

theorem getStatistics_totalCustomers (s : SimState) :
    (getStatistics s).totalCustomers =
      s.completedCustomers.length + s.abandonedCustomers.length := by
  by_cases h : s.completedCustomers.length + s.abandonedCustomers.length = 0
  · simp [getStatistics, h]
  · simp [getStatistics, h]

/-! ### C1 — statistics conservation -/

/-- C1, counterexample: with one customer waiting and nobody finished, the
source reports `totalCustomers = 0`, while the claimed conservation sum
(completed + abandoned + queued + busy) is `1`. -/
theorem totalCustomers_conservation_counterexample :
    ¬ ((getStatistics statsDemoState).totalCustomers =
        statsDemoState.completedCustomers.length +
        statsDemoState.abandonedCustomers.length +
        ((getQueueLengths statsDemoState).map Prod.snd).sum +
        (statsDemoState.servers.filter
          (fun sv => sv.state = ServerState.busy)).length) := by
  decide

/-- C1, amended: `getStatistics` reports `totalCustomers` as the number of
completed customers plus the number of abandoned customers only; customers
still waiting in a queue or currently in service are not counted. -/
theorem totalCustomers_eq_finished (s : SimState) :
    (getStatistics s).totalCustomers =
      s.completedCustomers.length + s.abandonedCustomers.length :=
  getStatistics_totalCustomers s

/-! ### C5 — first tick only records the reference point -/

/-- C5: after construction and after `reset` the wall-clock reference is
unset, and a tick in that situation only records the reference point: the
returned state is the input state with `lastUpdateTime` set, so simulated
time, queues, servers, booths and both history lists are untouched, and the
random stream is not consumed. -/
theorem update_first_call_records_only :
    (∀ ns nb strat times accel ab,
      (initState ns nb strat times accel ab).lastUpdateTime = none) ∧
    (∀ s : SimState, (reset s).lastUpdateTime = none) ∧
    (∀ (s : SimState) (now : ℚ) (draws : List ℚ), s.lastUpdateTime = none →
      update s now draws = ({ s with lastUpdateTime := some now }, draws)) := by
  refine ⟨fun _ _ _ _ _ _ => rfl, fun _ => rfl, fun s now draws h => ?_⟩
  unfold update
  rw [h]

/-- C5, witness: the scenario instantiated on a fresh default simulator. -/
theorem update_first_call_records_only_witness :
    update (initState 5 4 DispatchStrategy.longestWaitFirst none 20 true) 7 [1/2]
      = ({ initState 5 4 DispatchStrategy.longestWaitFirst none 20 true with
            lastUpdateTime := some 7 }, [1/2]) :=
  update_first_call_records_only.2.2
    (initState 5 4 DispatchStrategy.longestWaitFirst none 20 true) 7 [1/2] rfl

/-! ### C7 — addCustomer -/

/-- C7: `addCustomer` with a service type that has no queue fails by
returning `none` and leaves the state exactly as it was; with a configured
service type it returns a fresh customer whose `queueJoinTime` (and
`arrivalTime`) is the current simulated time and appends it to the tail of
that service type's queue, touching nothing but that queue and the id
counter. -/
theorem addCustomer_spec (s : SimState) (st : String) :
    (lookupQueue s.queues st = none → addCustomer s st = (none, s)) ∧
    (∀ q, lookupQueue s.queues st = some q →
      addCustomer s st =
        (some ⟨s.nextCustomerId, st, s.simulationTime, s.simulationTime,
               none, none, none, none, none⟩,
         { s with
            queues := setQueue s.queues st
              (q ++ [⟨s.nextCustomerId, st, s.simulationTime, s.simulationTime,
                      none, none, none, none, none⟩]),
            nextCustomerId := s.nextCustomerId + 1 })) := by
  constructor
  · intro h
    unfold addCustomer
    rw [h]
  · intro q h
    unfold addCustomer
    rw [h]

/-- C7, witness: an unknown category is rejected without effect on a fresh
simulator, and a known category is enqueued at the current simulated time. -/
theorem addCustomer_spec_witness :
    addCustomer (initState 5 4 DispatchStrategy.longestWaitFirst none 20 true)
        "visas" =
      (none, initState 5 4 DispatchStrategy.longestWaitFirst none 20 true) ∧
    (addCustomer (initState 5 4 DispatchStrategy.longestWaitFirst none 20 true)
        "parcels").1 = some ⟨1, "parcels", 0, 0, none, none, none, none, none⟩ := by
  constructor
  · exact (addCustomer_spec _ "visas").1 (by decide)
  · rw [(addCustomer_spec _ "parcels").2 [] (by decide)]
    rfl

/-! ### C8 — derived durations -/

/-- C8, counterexample: a customer whose service started (and even ended)
has both derived durations undefined, because the source's truthiness guard
`if self.serviceStartTime:` also rejects a start time equal to `0`. -/
theorem waitDuration_zero_start_counterexample :
    zeroStartCustomer.serviceStartTime.isSome = true ∧
    zeroStartCustomer.serviceEndTime.isSome = true ∧
    zeroStartCustomer.getWaitDuration = none ∧
    zeroStartCustomer.getServiceDuration = none := by
  decide

/-- C8, amended: the wait duration is `serviceStartTime − queueJoinTime`
and is defined exactly when `serviceStartTime` is set to a nonzero value
(the source's truthiness test also treats a start at time `0` as "service
not started"); the service duration is `serviceEndTime − serviceStartTime`
and is defined exactly when both timestamps are set and nonzero. -/
theorem duration_characterization :
    (∀ (c : Customer) (t : ℚ), c.serviceStartTime = some t → t ≠ 0 →
      c.getWaitDuration = some (t - c.queueJoinTime)) ∧
    (∀ c : Customer, c.serviceStartTime = none ∨ c.serviceStartTime = some 0 →
      c.getWaitDuration = none) ∧
    (∀ (c : Customer) (t0 t1 : ℚ), c.serviceStartTime = some t0 →
      c.serviceEndTime = some t1 → t0 ≠ 0 → t1 ≠ 0 →
      c.getServiceDuration = some (t1 - t0)) ∧
    (∀ c : Customer,
      c.serviceStartTime = none ∨ c.serviceStartTime = some 0 ∨
        c.serviceEndTime = none ∨ c.serviceEndTime = some 0 →
      c.getServiceDuration = none) := by
  refine ⟨?_, ?_, ?_, ?_⟩
  · intro c t h ht
    unfold Customer.getWaitDuration
    rw [h]
    simp [ht]
  · intro c h
    unfold Customer.getWaitDuration
    rcases h with h | h <;> rw [h] <;> simp
  · intro c t0 t1 h0 h1 ht0 ht1
    unfold Customer.getServiceDuration
    rw [h0, h1]
    simp [ht0, ht1]
  · intro c h
    unfold Customer.getServiceDuration
    rcases h with h | h | h | h <;>
      cases hs : c.serviceStartTime <;> cases he : c.serviceEndTime <;>
        simp_all

/-- C8, witness: the characterization applied to concrete customers. -/
theorem duration_characterization_witness :
    Customer.getWaitDuration
        ⟨2, "parcels", 1, 1, some 4, some 9, none, none, none⟩ = some 3 ∧
    Customer.getServiceDuration
        ⟨2, "parcels", 1, 1, some 4, some 9, none, none, none⟩ = some 5 ∧
    Customer.getWaitDuration
        ⟨3, "parcels", 0, 0, none, none, none, none, none⟩ = none := by
  refine ⟨?_, ?_, ?_⟩
  · have h := duration_characterization.1
      ⟨2, "parcels", 1, 1, some 4, some 9, none, none, none⟩ 4 rfl (by norm_num)
    rw [h]
    norm_num
  · have h := duration_characterization.2.2.1
      ⟨2, "parcels", 1, 1, some 4, some 9, none, none, none⟩ 4 9 rfl rfl
      (by norm_num) (by norm_num)
    rw [h]
    norm_num
  · exact duration_characterization.2.1
      ⟨3, "parcels", 0, 0, none, none, none, none, none⟩ (Or.inl rfl)

/-! ### C10 — timeRemaining is never negative -/

/-- C10: every entry of `getServerStates` has `timeRemaining ≥ 0`; a server
with no stored service end time reports `0`, and a busy server whose service
end time has already been passed by the simulated clock reports `0` rather
than a negative remainder. -/
theorem timeRemaining_nonneg :
    (∀ s : SimState, ∀ v ∈ getServerStates s, 0 ≤ v.timeRemaining) ∧
    (∀ (t : ℚ) (sv : Server), sv.serviceEndTime = none →
      (serverView t sv).timeRemaining = 0) ∧
    (∀ (t : ℚ) (sv : Server) (e : ℚ), sv.serviceEndTime = some e → e ≤ t →
      (serverView t sv).timeRemaining = 0) := by
  refine ⟨?_, ?_, ?_⟩
  · intro s v hv
    unfold getServerStates at hv
    rcases List.mem_map.1 hv with ⟨sv, _, rfl⟩
    unfold serverView
    cases h : sv.serviceEndTime with
    | none => simp
    | some e =>
      by_cases he : e = 0
      · simp [he]
      · simp [he, le_max_left]
  · intro t sv h
    unfold serverView
    rw [h]
  · intro t sv e h he
    unfold serverView
    rw [h]
    by_cases hz : e = 0
    · simp [hz]
    · simp only [hz, if_true, ne_eq, not_false_eq_true, if_pos]
      exact max_eq_left (by linarith)

/-- C10, witness: the bound applied to a fresh simulator entry, to a busy
server whose end time has been passed, and to a server with no end time. -/
theorem timeRemaining_nonneg_witness :
    (0 : ℚ) ≤ ((serverView 0 ⟨0, ServerState.spare, none, none, none⟩).timeRemaining) ∧
    (serverView 5 ⟨0, ServerState.busy, none, none, some 3⟩).timeRemaining = 0 ∧
    (serverView 5 ⟨0, ServerState.spare, none, none, none⟩).timeRemaining = 0 := by
  refine ⟨?_, ?_, ?_⟩
  · exact timeRemaining_nonneg.1
      (initState 1 1 DispatchStrategy.longestWaitFirst none 20 true) _ (by decide)
  · exact timeRemaining_nonneg.2.2 5 ⟨0, ServerState.busy, none, none, some 3⟩ 3
      rfl (by norm_num)
  · exact timeRemaining_nonneg.2.1 5 ⟨0, ServerState.spare, none, none, none⟩ rfl

/-! ### Frame lemmas: selection only touches queues and the cursor -/

theorem selectLongestWaitFirst_frame (s : SimState) :
    EqExceptQueuesRR (selectLongestWaitFirst s).2 s := by
  unfold selectLongestWaitFirst
  split <;> (unfold EqExceptQueuesRR; simp)

theorem selectShortestJobFirst_frame (s : SimState) :
    EqExceptQueuesRR (selectShortestJobFirst s).2 s := by
  unfold selectShortestJobFirst
  split <;> (unfold EqExceptQueuesRR; simp)

theorem selectPriorityOrderAux_frame (s : SimState) : ∀ l : List String,
    EqExceptQueuesRR (selectPriorityOrderAux s l).2 s := by
  intro l
  induction l with
  | nil => unfold EqExceptQueuesRR selectPriorityOrderAux; simp
  | cons st rest ih =>
    unfold selectPriorityOrderAux
    split
    · unfold EqExceptQueuesRR; simp
    · exact ih

theorem selectRoundRobinAux_frame : ∀ (k : Nat) (s : SimState),
    EqExceptQueuesRR (selectRoundRobinAux k s).2 s := by
  intro k
  induction k with
  | zero => intro s; unfold EqExceptQueuesRR selectRoundRobinAux; simp
  | succ k ih =>
    intro s
    simp only [selectRoundRobinAux]
    split
    · unfold EqExceptQueuesRR; simp
    · exact ih _

theorem selectNextCustomer_frame (s : SimState) :
    EqExceptQueuesRR (selectNextCustomer s).2 s := by
  unfold selectNextCustomer
  split
  · exact selectLongestWaitFirst_frame s
  · exact selectShortestJobFirst_frame s
  · exact selectRoundRobinAux_frame s.serviceTypesList.length s
  · exact selectPriorityOrderAux_frame s priorityOrderList

/-- The assignment loop never touches the clock fields. -/
theorem assignLoop_clock_frame : ∀ (aS aB : List Nat) (s : SimState) (draws : List ℚ),
    (assignLoop s draws aS aB).1.simulationTime = s.simulationTime ∧
    (assignLoop s draws aS aB).1.lastUpdateTime = s.lastUpdateTime := by
  intro aS
  induction aS with
  | nil => intro aB s draws; exact ⟨rfl, rfl⟩
  | cons si restS ih =>
    intro aB s draws
    cases aB with
    | nil => exact ⟨rfl, rfl⟩
    | cons bi restB =>
      simp only [assignLoop]
      split
      next c s' hsel =>
        have h2 : (selectNextCustomer s).2 = s' := by rw [hsel]
        have hf := selectNextCustomer_frame s
        rw [h2] at hf
        exact ⟨hf.2.2.2.2.2.2.2.2.1, hf.2.2.2.2.2.2.2.2.2.1⟩
      next c s' hsel =>
        have h2 : (selectNextCustomer s).2 = s' := by rw [hsel]
        have hf := selectNextCustomer_frame s
        rw [h2] at hf
        rcases ih restB _ _ with ⟨h3, h4⟩
        rw [h3, h4]
        exact ⟨hf.2.2.2.2.2.2.2.2.1, hf.2.2.2.2.2.2.2.2.2.1⟩


/-! ### C2 — the wall-clock delta is not clamped -/

/-- C2, counterexample: feeding a wall clock that runs backwards (tick at
wall time 100, then at wall time 40) makes the simulated clock decrease,
because the source adds the raw delta without clamping. -/
theorem simulationTime_decreases_counterexample :
    clockDemo2.simulationTime < clockDemo1.simulationTime := by
  norm_num [clockDemo2, clockDemo1, update, initState, checkCompletedServices,
    completeSweep, checkAbandonments, assignServersToCustomers,
    availableServerIdx, availableBoothIdx, assignLoop, selectNextCustomer,
    selectLongestWaitFirst, lookupQueue, setQueue, defaultServiceTimes,
    takeDraw, modifyAt, List.enum, List.enumFrom, Server.isAvailable,
    Booth.isAvailable]

/-- C2, amended: on a non-first tick the simulated clock advances by exactly
`(now − last) · acceleration / 60` with no clamping, so it can only be
guaranteed non-decreasing when the wall-clock samples are non-decreasing
(and it does decrease on a negative delta, as the counterexample shows). -/
theorem update_simTime_no_clamping (s : SimState) (now last : ℚ)
    (draws : List ℚ) (h : s.lastUpdateTime = some last) :
    (update s now draws).1.simulationTime =
      s.simulationTime + (now - last) * s.timeAcceleration / 60 ∧
    (0 ≤ s.timeAcceleration → last ≤ now →
      s.simulationTime ≤ (update s now draws).1.simulationTime) := by
  have frame : ∀ (x : SimState) (d : List ℚ),
      (assignServersToCustomers x d).1.simulationTime = x.simulationTime :=
    fun x d => (assignLoop_clock_frame _ _ x d).1
  have key : (update s now draws).1.simulationTime =
      s.simulationTime + (now - last) * s.timeAcceleration / 60 := by
    unfold update
    rw [h]
    by_cases hab : s.abandonmentEnabled <;>
      simp only [hab, if_true, if_false, Bool.false_eq_true, frame] <;> rfl
  refine ⟨key, fun hacc hle => ?_⟩
  rw [key]
  have : 0 ≤ (now - last) * s.timeAcceleration / 60 :=
    div_nonneg (mul_nonneg (by linarith) hacc) (by norm_num)
  linarith

/-- C2, witness: a recorded reference at wall time 2 and a tick at wall
time 5 advance the simulated clock by exactly `3 · 20 / 60 = 1` minute. -/
theorem update_simTime_no_clamping_witness :
    (update clockDemoRef 5 []).1.simulationTime = 1 := by
  rw [(update_simTime_no_clamping clockDemoRef 5 2 [] rfl).1]
  norm_num [clockDemoRef, initState]


/-! ### C9 — reset does not restore the round-robin cursor -/

theorem lookupQueue_nil (st : String) : lookupQueue [] st = none := rfl

theorem lookupQueue_cons (k : String) (q : List Customer)
    (qs : List (String × List Customer)) (st : String) :
    lookupQueue ((k, q) :: qs) st = if k = st then some q else lookupQueue qs st := by
  unfold lookupQueue
  by_cases h : k = st
  · simp [List.find?, h]
  · simp [List.find?, h]

theorem lookupServiceTime_nil (st : String) : lookupServiceTime [] st = 3 := rfl

theorem lookupServiceTime_cons (k : String) (v : ℚ) (ts : List (String × ℚ))
    (st : String) :
    lookupServiceTime ((k, v) :: ts) st =
      if k = st then v else lookupServiceTime ts st := by
  unfold lookupServiceTime
  by_cases h : k = st
  · simp [List.find?, h]
  · simp [List.find?, h]

theorem spNePp : ¬ ("standard_post" = "passports") := by decide

theorem spNePc : ¬ ("standard_post" = "parcels") := by decide

theorem ppNeSp : ¬ ("passports" = "standard_post") := by decide

theorem ppNePc : ¬ ("passports" = "parcels") := by decide

theorem pcNeSp : ¬ ("parcels" = "standard_post") := by decide

theorem pcNePp : ¬ ("parcels" = "passports") := by decide

theorem rrStep_add1 : addCustomer rrDemoFresh "standard_post" = (some rrCu1, rrP1) := by
  norm_num [addCustomer, lookupQueue_nil, lookupQueue_cons, setQueue, rrDemoFresh,
    initState, defaultServiceTimes, rrP1, rrCu1, spNePp, spNePc, ppNeSp, ppNePc, pcNeSp, pcNePp]
  all_goals decide

theorem rrStep_add2 : addCustomer rrP1 "parcels" = (some rrCu2, rrP2) := by
  norm_num [addCustomer, lookupQueue_nil, lookupQueue_cons, setQueue, rrDemoFresh,
    initState, defaultServiceTimes, rrP1, rrP2, rrCu1, rrCu2, spNePp, spNePc, ppNeSp, ppNePc, pcNeSp, pcNePp]
  all_goals decide

theorem rrStep_t0 : update rrP2 0 [] = (rrP3, []) := by
  norm_num [rrP2, rrP3, update, checkCompletedServices, completeSweep, markCompleted,
    Server.finishService, checkAbandonments, abandonAllQueues,
    abandonQueueSweep, assignServersToCustomers, availableServerIdx,
    availableBoothIdx, assignLoop, selectNextCustomer, selectRoundRobin,
    selectRoundRobinAux, lookupQueue_nil, lookupQueue_cons, setQueue,
    lookupServiceTime_nil, lookupServiceTime_cons, takeDraw,
    modifyAt, List.enum, List.enumFrom, Server.isAvailable, Booth.isAvailable,
    Server.startService, Booth.assignServer, Booth.releaseServer, List.find?,
    rrDemoFresh, initState, defaultServiceTimes, rrCu1, rrCu2,
    spNePp, spNePc, ppNeSp, ppNePc, pcNeSp, pcNePp]
  all_goals decide

theorem rrStep_t1 : update rrP3 3 [1/2] = (rrP4, []) := by
  norm_num [rrP3, rrP2, rrP4, update, checkCompletedServices, completeSweep, markCompleted,
    Server.finishService, checkAbandonments, abandonAllQueues,
    abandonQueueSweep, assignServersToCustomers, availableServerIdx,
    availableBoothIdx, assignLoop, selectNextCustomer, selectRoundRobin,
    selectRoundRobinAux, lookupQueue_nil, lookupQueue_cons, setQueue,
    lookupServiceTime_nil, lookupServiceTime_cons, takeDraw,
    modifyAt, List.enum, List.enumFrom, Server.isAvailable, Booth.isAvailable,
    Server.startService, Booth.assignServer, Booth.releaseServer, List.find?,
    rrDemoFresh, initState, defaultServiceTimes, rrCu1, rrCu2,
    spNePp, spNePc, ppNeSp, ppNePc, pcNeSp, pcNePp]
  all_goals decide

theorem rrStep_t2 : update rrP4 (21/2) [1/2] = (rrP5, []) := by
  norm_num [rrP4, rrP5, update, checkCompletedServices, completeSweep, markCompleted,
    Server.finishService, checkAbandonments, abandonAllQueues,
    abandonQueueSweep, assignServersToCustomers, availableServerIdx,
    availableBoothIdx, assignLoop, selectNextCustomer, selectRoundRobin,
    selectRoundRobinAux, lookupQueue_nil, lookupQueue_cons, setQueue,
    lookupServiceTime_nil, lookupServiceTime_cons, takeDraw,
    modifyAt, List.enum, List.enumFrom, Server.isAvailable, Booth.isAvailable,
    Server.startService, Booth.assignServer, Booth.releaseServer, List.find?,
    rrDemoFresh, initState, defaultServiceTimes, rrCu1, rrCu2,
    spNePp, spNePc, ppNeSp, ppNePc, pcNeSp, pcNePp]
  all_goals decide

theorem rrStep_pre_t0 : update rrP1 0 [] = (rrA2, []) := by
  norm_num [rrP1, rrA2, update, checkCompletedServices, completeSweep, markCompleted,
    Server.finishService, checkAbandonments, abandonAllQueues,
    abandonQueueSweep, assignServersToCustomers, availableServerIdx,
    availableBoothIdx, assignLoop, selectNextCustomer, selectRoundRobin,
    selectRoundRobinAux, lookupQueue_nil, lookupQueue_cons, setQueue,
    lookupServiceTime_nil, lookupServiceTime_cons, takeDraw,
    modifyAt, List.enum, List.enumFrom, Server.isAvailable, Booth.isAvailable,
    Server.startService, Booth.assignServer, Booth.releaseServer, List.find?,
    rrDemoFresh, initState, defaultServiceTimes, rrCu1, rrCu2,
    spNePp, spNePc, ppNeSp, ppNePc, pcNeSp, pcNePp]
  all_goals decide

theorem rrStep_pre_t1 : update rrA2 0 [1/2] = (rrA3, []) := by
  norm_num [rrA2, rrP1, rrA3, update, checkCompletedServices, completeSweep, markCompleted,
    Server.finishService, checkAbandonments, abandonAllQueues,
    abandonQueueSweep, assignServersToCustomers, availableServerIdx,
    availableBoothIdx, assignLoop, selectNextCustomer, selectRoundRobin,
    selectRoundRobinAux, lookupQueue_nil, lookupQueue_cons, setQueue,
    lookupServiceTime_nil, lookupServiceTime_cons, takeDraw,
    modifyAt, List.enum, List.enumFrom, Server.isAvailable, Booth.isAvailable,
    Server.startService, Booth.assignServer, Booth.releaseServer, List.find?,
    rrDemoFresh, initState, defaultServiceTimes, rrCu1, rrCu2,
    spNePp, spNePc, ppNeSp, ppNePc, pcNeSp, pcNePp]
  all_goals decide

theorem rrPreRun_eval : rrDemoPreRun = rrA3 := by
  unfold rrDemoPreRun
  rw [rrStep_add1]
  simp only []
  rw [rrStep_pre_t0]
  simp only []
  rw [rrStep_pre_t1]

theorem rrReset_eval : reset rrDemoPreRun = rrQ0 := by
  rw [rrPreRun_eval]
  norm_num [reset, rrA3, rrQ0, rrDemoFresh, initState, defaultServiceTimes,
    spNePp, spNePc, ppNeSp, ppNePc, pcNeSp, pcNePp]
  all_goals decide

theorem rrStep_qadd1 : addCustomer rrQ0 "standard_post" = (some rrCu1, rrQ1) := by
  norm_num [addCustomer, lookupQueue_nil, lookupQueue_cons, setQueue, rrQ0, rrQ1, rrP1,
    rrDemoFresh, initState, defaultServiceTimes, rrCu1, spNePp, spNePc, ppNeSp, ppNePc, pcNeSp, pcNePp]
  all_goals decide

theorem rrStep_qadd2 : addCustomer rrQ1 "parcels" = (some rrCu2, rrQ2) := by
  norm_num [addCustomer, lookupQueue_nil, lookupQueue_cons, setQueue, rrQ1, rrQ2, rrP1,
    rrP2, rrDemoFresh, initState, defaultServiceTimes, rrCu1, rrCu2,
    spNePp, spNePc, ppNeSp, ppNePc, pcNeSp, pcNePp]
  all_goals decide

theorem rrStep_qt0 : update rrQ2 0 [] = (rrQ3, []) := by
  norm_num [rrQ2, rrQ3, rrP2, rrP3, update, checkCompletedServices, completeSweep, markCompleted,
    Server.finishService, checkAbandonments, abandonAllQueues,
    abandonQueueSweep, assignServersToCustomers, availableServerIdx,
    availableBoothIdx, assignLoop, selectNextCustomer, selectRoundRobin,
    selectRoundRobinAux, lookupQueue_nil, lookupQueue_cons, setQueue,
    lookupServiceTime_nil, lookupServiceTime_cons, takeDraw,
    modifyAt, List.enum, List.enumFrom, Server.isAvailable, Booth.isAvailable,
    Server.startService, Booth.assignServer, Booth.releaseServer, List.find?,
    rrDemoFresh, initState, defaultServiceTimes, rrCu1, rrCu2,
    spNePp, spNePc, ppNeSp, ppNePc, pcNeSp, pcNePp]
  all_goals decide

theorem rrStep_qt1 : update rrQ3 3 [1/2] = (rrQ4, []) := by
  norm_num [rrQ3, rrP3, rrP2, rrQ4, update, checkCompletedServices, completeSweep, markCompleted,
    Server.finishService, checkAbandonments, abandonAllQueues,
    abandonQueueSweep, assignServersToCustomers, availableServerIdx,
    availableBoothIdx, assignLoop, selectNextCustomer, selectRoundRobin,
    selectRoundRobinAux, lookupQueue_nil, lookupQueue_cons, setQueue,
    lookupServiceTime_nil, lookupServiceTime_cons, takeDraw,
    modifyAt, List.enum, List.enumFrom, Server.isAvailable, Booth.isAvailable,
    Server.startService, Booth.assignServer, Booth.releaseServer, List.find?,
    rrDemoFresh, initState, defaultServiceTimes, rrCu1, rrCu2,
    spNePp, spNePc, ppNeSp, ppNePc, pcNeSp, pcNePp]
  all_goals decide

theorem rrStep_qt2 : update rrQ4 (21/2) [1/2] = (rrQ5, [1/2]) := by
  norm_num [rrQ4, rrQ5, update, checkCompletedServices, completeSweep, markCompleted,
    Server.finishService, checkAbandonments, abandonAllQueues,
    abandonQueueSweep, assignServersToCustomers, availableServerIdx,
    availableBoothIdx, assignLoop, selectNextCustomer, selectRoundRobin,
    selectRoundRobinAux, lookupQueue_nil, lookupQueue_cons, setQueue,
    lookupServiceTime_nil, lookupServiceTime_cons, takeDraw,
    modifyAt, List.enum, List.enumFrom, Server.isAvailable, Booth.isAvailable,
    Server.startService, Booth.assignServer, Booth.releaseServer, List.find?,
    rrDemoFresh, initState, defaultServiceTimes, rrCu1, rrCu2,
    spNePp, spNePc, ppNeSp, ppNePc, pcNeSp, pcNePp]
  all_goals decide

theorem rrReplay_fresh_eval : rrReplay rrDemoFresh = rrP5 := by
  unfold rrReplay
  rw [rrStep_add1]
  simp only []
  rw [rrStep_add2]
  simp only []
  rw [rrStep_t0]
  simp only []
  rw [rrStep_t1]
  simp only []
  rw [rrStep_t2]

theorem rrReplay_reset_eval : rrReplay (reset rrDemoPreRun) = rrQ5 := by
  rw [rrReset_eval]
  unfold rrReplay
  rw [rrStep_qadd1]
  simp only []
  rw [rrStep_qadd2]
  simp only []
  rw [rrStep_qt0]
  simp only []
  rw [rrStep_qt1]
  simp only []
  rw [rrStep_qt2]

/-- C9: the claim fails on the code.  `reset()` restores every field it
touches, but it does not touch `roundRobinIndex`.  Replaying the identical
arrival/tick sequence (same wall-clock samples, same random draws) on a
RoundRobin simulator after `reset()` therefore serves a different customer
than a newly constructed instance and produces different statistics: the
fresh instance has served 1 customer at simulated minute 7/2, the reset one
has served none. -/
theorem reset_roundRobin_divergence :
    (getStatistics (rrReplay rrDemoFresh)).totalServed = 1 ∧
    (getStatistics (rrReplay (reset rrDemoPreRun))).totalServed = 0 ∧
    (reset rrDemoPreRun).roundRobinIndex = 1 ∧
    rrDemoFresh.roundRobinIndex = 0 := by
  refine ⟨?_, ?_, ?_, ?_⟩
  · rw [rrReplay_fresh_eval]
    norm_num [getStatistics, rrP5, rrDemoFresh, initState, defaultServiceTimes]
  · rw [rrReplay_reset_eval]
    norm_num [getStatistics, rrQ5, rrQ4, rrDemoFresh, initState,
      defaultServiceTimes]
  · rw [rrReset_eval]
    rfl
  · rfl


/-! ### C3 — the abandonment model -/

theorem abandonProb_eq_spec (w : ℚ) :
    abandonProb w = min (specAbandonProbability w) (1/2) := by
  by_cases h5 : w ≤ 5
  · have h5' : ¬ (5 : ℚ) < w := not_lt.mpr h5
    have h10' : ¬ (10 : ℚ) < w := not_lt.mpr (le_trans h5 (by norm_num))
    simp [abandonProb, specAbandonProbability, h5, h5', h10']
  · by_cases h10 : w ≤ 10
    · have h5' : (5 : ℚ) < w := not_le.mp h5
      have h10' : ¬ (10 : ℚ) < w := not_lt.mpr h10
      simp [abandonProb, specAbandonProbability, h5, h10, h5', h10']
    · have h5' : (5 : ℚ) < w := not_le.mp h5
      have h10' : (10 : ℚ) < w := not_le.mp h10
      simp [abandonProb, specAbandonProbability, h5, h10, h5', h10']

/-- C3: the per-tick abandonment model as implemented.  (i) A waiting
customer with draw `d` is evicted exactly when
`d < min(p, 0.5) · (1 / accelerationFactor)` with `p` the spec's piecewise
probability of the wait `simulatedTime − queueJoinTime`.  (ii) Sweeping a
queue keeps exactly the customers whose draw does not evict them, in order,
and produces the evicted ones, in order, marked `abandoned` with
`serviceEndTime = simulatedTime`.  (iii) `_checkAbandonments` removes those
customers from their queues and appends them to the abandoned-history list. -/
theorem abandonment_model_spec :
    (∀ (t a : ℚ) (c : Customer) (d : ℚ),
      abandonDecision t a c d ↔
        d < min (specAbandonProbability (t - c.queueJoinTime)) (1/2) * (1 / a)) ∧
    (∀ (t a : ℚ) (q : List Customer) (ds : List ℚ), ds.length = q.length →
      abandonQueueSweep t a q ds =
        (((q.zip ds).filter
            (fun p => !(decide (abandonDecision t a p.1 p.2)))).map Prod.fst,
         ((q.zip ds).filter
            (fun p => decide (abandonDecision t a p.1 p.2))).map
           (fun p => markAbandoned t p.1),
         [])) ∧
    (∀ (s : SimState) (ds : List ℚ),
      (checkAbandonments s ds).1.abandonedCustomers =
        s.abandonedCustomers ++
          (abandonAllQueues s.simulationTime s.timeAcceleration s.queues ds).2.1 ∧
      (checkAbandonments s ds).1.queues =
        (abandonAllQueues s.simulationTime s.timeAcceleration s.queues ds).1) := by
  refine ⟨?_, ?_, fun s ds => ⟨rfl, rfl⟩⟩
  · intro t a c d
    unfold abandonDecision
    rw [abandonProb_eq_spec]
  · intro t a q
    induction q with
    | nil =>
      intro ds hds
      have hnil : ds = [] := List.eq_nil_of_length_eq_zero (by simpa using hds)
      subst hnil
      rfl
    | cons c rest ih =>
      intro ds hds
      cases ds with
      | nil => simp at hds
      | cons d ds' =>
        have hlen : ds'.length = rest.length := by simpa using hds
        by_cases hd : abandonDecision t a c d
        · simp [abandonQueueSweep, takeDraw, hd, ih ds' hlen]
        · simp [abandonQueueSweep, takeDraw, hd, ih ds' hlen]

/-- C3, witness: at simulated time 20 with acceleration 2, a customer that
joined at time 0 has `p = min(0.15·15, 0.5) = 0.5` and eviction threshold
`0.5 · (1/2) = 1/4`: a draw of `1/10` evicts, a draw of `9/10` does not. -/
theorem abandonment_model_spec_witness :
    abandonQueueSweep 20 2
        [⟨1, "parcels", 0, 0, none, none, none, none, none⟩,
         ⟨2, "parcels", 0, 0, none, none, none, none, none⟩] [1/10, 9/10] =
      ([⟨2, "parcels", 0, 0, none, none, none, none, none⟩],
       [⟨1, "parcels", 0, 0, none, some 20, none, none, some Outcome.abandoned⟩],
       []) := by
  rw [abandonment_model_spec.2.1 20 2
    [⟨1, "parcels", 0, 0, none, none, none, none, none⟩,
     ⟨2, "parcels", 0, 0, none, none, none, none, none⟩] [1/10, 9/10] rfl]
  norm_num [abandonDecision, abandonProb, markAbandoned, min_def,
    List.zip, List.zipWith, List.filter]


/-! ### C6 — round-robin selection -/

theorem lookupQueue_setQueue_ne (qs : List (String × List Customer))
    (st st' : String) (q : List Customer) (h : st' ≠ st) :
    lookupQueue (setQueue qs st q) st' = lookupQueue qs st' := by
  induction qs with
  | nil => rfl
  | cons p rest ih =>
    rcases p with ⟨k, v⟩
    by_cases hk : k = st
    · subst hk
      by_cases hk' : k = st'
      · exact absurd hk'.symm h
      · simp [setQueue, lookupQueue_cons, hk', if_pos rfl] at ih ⊢
        simpa [setQueue] using ih
    · by_cases hk' : k = st'
      · subst hk'
        simp [setQueue, lookupQueue_cons, hk]
      · simp [setQueue, lookupQueue_cons, hk, hk'] at ih ⊢
        simpa [setQueue] using ih

theorem nodup_getD_ne {l : List String} (h : l.Nodup) {a b : Nat}
    (ha : a < l.length) (hb : b < l.length) (hab : a ≠ b) :
    l.getD a "" ≠ l.getD b "" := by
  intro heq
  rw [List.getD_eq_get?, List.getD_eq_get?, List.get?_eq_get ha,
    List.get?_eq_get hb] at heq
  simp only [Option.getD_some] at heq
  exact hab (by simpa using (h.get_inj_iff).mp heq)

theorem add_mod_ne_self {idx m n : Nat} (hidx : idx < n) (hm0 : 0 < m)
    (hmn : m < n) : (idx + m) % n ≠ idx := by
  intro h
  have h1 : idx % n = (idx + m) % n := by rw [h, Nat.mod_eq_of_lt hidx]
  have h2 : n ∣ idx + m - idx := (Nat.modEq_iff_dvd' (Nat.le_add_right idx m)).mp h1
  rw [Nat.add_sub_cancel_left] at h2
  exact absurd (Nat.le_of_dvd hm0 h2) (not_le.mpr hmn)

theorem selectRoundRobinAux_empty : ∀ (k : Nat) (s : SimState),
    s.roundRobinIndex < s.serviceTypesList.length →
    (∀ st ∈ s.serviceTypesList, lookupQueue s.queues st = some []) →
    (selectRoundRobinAux k s).1 = none ∧
    (selectRoundRobinAux k s).2.queues = s.queues ∧
    (selectRoundRobinAux k s).2.roundRobinIndex =
      (s.roundRobinIndex + k) % s.serviceTypesList.length := by
  intro k
  induction k with
  | zero =>
    intro s hidx hempty
    exact ⟨rfl, rfl, (Nat.mod_eq_of_lt hidx).symm⟩
  | succ m ih =>
    intro s hidx hempty
    have hn : 0 < s.serviceTypesList.length := lt_of_le_of_lt (Nat.zero_le _) hidx
    have hmem : s.serviceTypesList.getD s.roundRobinIndex "" ∈ s.serviceTypesList := by
      rw [List.getD_eq_get?, List.get?_eq_get hidx]
      exact List.get_mem _ _ _
    have hst := hempty _ hmem
    simp only [selectRoundRobinAux, hst]
    have ih' := ih { s with roundRobinIndex :=
        (s.roundRobinIndex + 1) % s.serviceTypesList.length }
      (Nat.mod_lt _ hn) hempty
    refine ⟨ih'.1, ih'.2.1, ?_⟩
    rw [ih'.2.2]
    simp only [Nat.mod_add_mod]
    congr 1
    omega

theorem selectRoundRobinAux_success : ∀ (k j : Nat) (s : SimState)
    (c : Customer) (restq : List Customer),
    s.roundRobinIndex < s.serviceTypesList.length →
    j < k →
    (∀ i < j, lookupQueue s.queues
      (s.serviceTypesList.getD
        ((s.roundRobinIndex + i) % s.serviceTypesList.length) "") = some []) →
    lookupQueue s.queues
      (s.serviceTypesList.getD
        ((s.roundRobinIndex + j) % s.serviceTypesList.length) "") =
      some (c :: restq) →
    selectRoundRobinAux k s =
      (some c,
       { s with
          queues := setQueue s.queues
            (s.serviceTypesList.getD
              ((s.roundRobinIndex + j) % s.serviceTypesList.length) "") restq,
          roundRobinIndex :=
            (s.roundRobinIndex + j + 1) % s.serviceTypesList.length }) := by
  intro k
  induction k with
  | zero => intro j s c restq _ hjk; exact absurd hjk (Nat.not_lt_zero j)
  | succ m ih =>
    intro j s c restq hidx hjk hskip hhit
    have hn : 0 < s.serviceTypesList.length := lt_of_le_of_lt (Nat.zero_le _) hidx
    cases j with
    | zero =>
      simp only [Nat.add_zero, Nat.mod_eq_of_lt hidx] at hhit ⊢
      simp only [selectRoundRobinAux, hhit]
    | succ j' =>
      have hsk0 := hskip 0 (Nat.succ_pos j')
      rw [Nat.add_zero, Nat.mod_eq_of_lt hidx] at hsk0
      simp only [selectRoundRobinAux, hsk0]
      have key : ∀ i : Nat,
          (((s.roundRobinIndex + 1) % s.serviceTypesList.length + i) %
            s.serviceTypesList.length) = (s.roundRobinIndex + (i + 1)) %
            s.serviceTypesList.length := by
        intro i
        rw [Nat.mod_add_mod]
        congr 1
        omega
      have ih' := ih j'
        { s with roundRobinIndex :=
            (s.roundRobinIndex + 1) % s.serviceTypesList.length } c restq
        (Nat.mod_lt _ hn) (Nat.lt_of_succ_lt_succ hjk)
        (fun i hi => by
          have := hskip (i + 1) (Nat.succ_lt_succ hi)
          simpa [key i] using this)
        (by simpa [key j'] using hhit)
      rw [ih']
      simp only [key j']
      have key2 : ((s.roundRobinIndex + 1) % s.serviceTypesList.length + j' + 1) %
          s.serviceTypesList.length =
          (s.roundRobinIndex + (j' + 1) + 1) % s.serviceTypesList.length := by
        rw [Nat.add_assoc, Nat.mod_add_mod]
        congr 1
        omega
      rw [key2]

theorem simState_eq_of_parts {a b : SimState} (h : EqExceptQueuesRR a b)
    (hq : a.queues = b.queues) (hr : a.roundRobinIndex = b.roundRobinIndex) :
    a = b := by
  cases a
  cases b
  unfold EqExceptQueuesRR at h
  simp_all

theorem selectRRTimes_fair : ∀ (k : Nat) (s : SimState),
    s.roundRobinIndex < s.serviceTypesList.length →
    s.serviceTypesList.Nodup →
    k ≤ s.serviceTypesList.length →
    (∀ i < k, ∃ c restq, lookupQueue s.queues
      (s.serviceTypesList.getD
        ((s.roundRobinIndex + i) % s.serviceTypesList.length) "") =
      some (c :: restq)) →
    (selectRRTimes k s).1.length = k ∧
    (∀ i < k, (selectRRTimes k s).1.get? i =
      (lookupQueue s.queues
        (s.serviceTypesList.getD
          ((s.roundRobinIndex + i) % s.serviceTypesList.length) "")).bind
        List.head?) := by
  intro k
  induction k with
  | zero => intro s _ _ _ _; exact ⟨rfl, fun i hi => absurd hi (Nat.not_lt_zero i)⟩
  | succ m ih =>
    intro s hidx hnodup hkn hne
    have hn : 0 < s.serviceTypesList.length := lt_of_le_of_lt (Nat.zero_le _) hidx
    obtain ⟨c, restq, hhit⟩ := hne 0 (Nat.succ_pos m)
    have hsel : selectRoundRobin s =
        (some c,
         { s with
            queues := setQueue s.queues
              (s.serviceTypesList.getD
                ((s.roundRobinIndex + 0) % s.serviceTypesList.length) "") restq,
            roundRobinIndex :=
              (s.roundRobinIndex + 0 + 1) % s.serviceTypesList.length }) :=
      selectRoundRobinAux_success s.serviceTypesList.length 0 s c restq hidx hn
        (fun i hi => absurd hi (Nat.not_lt_zero i)) hhit
    rw [Nat.add_zero, Nat.mod_eq_of_lt hidx] at hsel hhit
    have hkey : ∀ i : Nat, 0 < i → i < s.serviceTypesList.length →
        s.serviceTypesList.getD ((s.roundRobinIndex + i) %
          s.serviceTypesList.length) "" ≠
        s.serviceTypesList.getD s.roundRobinIndex "" :=
      fun i hi0 hin => nodup_getD_ne hnodup
        (Nat.mod_lt _ hn) hidx (add_mod_ne_self hidx hi0 hin)
    have ih' := ih
      { s with
          queues := setQueue s.queues
            (s.serviceTypesList.getD s.roundRobinIndex "") restq,
          roundRobinIndex := (s.roundRobinIndex + 1) % s.serviceTypesList.length }
      (Nat.mod_lt _ hn) hnodup (le_trans (Nat.le_succ m) hkn)
      (fun i hi => by
        have key : (((s.roundRobinIndex + 1) % s.serviceTypesList.length + i) %
            s.serviceTypesList.length) = (s.roundRobinIndex + (i + 1)) %
            s.serviceTypesList.length := by
          rw [Nat.mod_add_mod]
          congr 1
          omega
        obtain ⟨c', restq', hh⟩ := hne (i + 1) (Nat.succ_lt_succ hi)
        refine ⟨c', restq', ?_⟩
        simp only [key]
        rw [lookupQueue_setQueue_ne _ _ _ _
          (hkey (i + 1) (Nat.succ_pos i) (lt_of_lt_of_le (Nat.succ_lt_succ hi) hkn))]
        exact hh)
    simp only [selectRRTimes, hsel]
    constructor
    · simpa using ih'.1
    · intro i hi
      cases i with
      | zero =>
        simp only [Nat.add_zero, Nat.mod_eq_of_lt hidx]
        rw [hhit]
        rfl
      | succ i' =>
        have key : (((s.roundRobinIndex + 1) % s.serviceTypesList.length + i') %
            s.serviceTypesList.length) = (s.roundRobinIndex + (i' + 1)) %
            s.serviceTypesList.length := by
          rw [Nat.mod_add_mod]
          congr 1
          omega
        have := ih'.2 i' (Nat.lt_of_succ_lt_succ hi)
        simp only [key] at this
        rw [lookupQueue_setQueue_ne _ _ _ _
          (hkey (i' + 1) (Nat.succ_pos i') (lt_of_lt_of_le hi hkn))] at this
        simpa using this

/-- C6: RoundRobin selection.  (i) When every configured queue is empty the
selection returns `none` and the state — in particular the committed cursor
position — is unchanged.  (ii) When the first non-empty queue sits `j`
positions past the cursor (wrapping), its head is dequeued and the cursor is
left one past the category that yielded the customer.  (iii) Fairness: with
all `N` categories non-empty, `N` consecutive selections return the heads of
the `N` different category queues in cyclic order starting at the cursor. -/
theorem roundRobin_selection_spec :
    (∀ s : SimState, s.roundRobinIndex < s.serviceTypesList.length →
      (∀ st ∈ s.serviceTypesList, lookupQueue s.queues st = some []) →
      selectRoundRobin s = (none, s)) ∧
    (∀ (s : SimState) (j : Nat) (c : Customer) (restq : List Customer),
      s.roundRobinIndex < s.serviceTypesList.length →
      j < s.serviceTypesList.length →
      (∀ i < j, lookupQueue s.queues
        (s.serviceTypesList.getD
          ((s.roundRobinIndex + i) % s.serviceTypesList.length) "") = some []) →
      lookupQueue s.queues
        (s.serviceTypesList.getD
          ((s.roundRobinIndex + j) % s.serviceTypesList.length) "") =
        some (c :: restq) →
      selectRoundRobin s =
        (some c,
         { s with
            queues := setQueue s.queues
              (s.serviceTypesList.getD
                ((s.roundRobinIndex + j) % s.serviceTypesList.length) "") restq,
            roundRobinIndex :=
              (s.roundRobinIndex + j + 1) % s.serviceTypesList.length })) ∧
    (∀ s : SimState, s.roundRobinIndex < s.serviceTypesList.length →
      s.serviceTypesList.Nodup →
      (∀ i < s.serviceTypesList.length, ∃ c restq, lookupQueue s.queues
        (s.serviceTypesList.getD
          ((s.roundRobinIndex + i) % s.serviceTypesList.length) "") =
        some (c :: restq)) →
      (selectRRTimes s.serviceTypesList.length s).1.length =
        s.serviceTypesList.length ∧
      (∀ i < s.serviceTypesList.length,
        (selectRRTimes s.serviceTypesList.length s).1.get? i =
          (lookupQueue s.queues
            (s.serviceTypesList.getD
              ((s.roundRobinIndex + i) % s.serviceTypesList.length) "")).bind
            List.head?)) := by
  refine ⟨?_, ?_, ?_⟩
  · intro s hidx hempty
    have h := selectRoundRobinAux_empty s.serviceTypesList.length s hidx hempty
    have hframe := selectRoundRobinAux_frame s.serviceTypesList.length s
    have h2 : (selectRoundRobinAux s.serviceTypesList.length s).2 = s := by
      refine simState_eq_of_parts hframe h.2.1 ?_
      rw [h.2.2, Nat.add_mod_right, Nat.mod_eq_of_lt hidx]
    unfold selectRoundRobin
    rw [Prod.ext_iff]
    exact ⟨h.1, h2⟩
  · intro s j c restq hidx hjn hskip hhit
    exact selectRoundRobinAux_success s.serviceTypesList.length j s c restq
      hidx hjn hskip hhit
  · intro s hidx hnodup hne
    exact selectRRTimes_fair s.serviceTypesList.length s hidx hnodup le_rfl hne


/-- C6, witness: on a fresh RoundRobin simulator with empty queues the
selection is a no-op, and with one customer per category three consecutive
selections return the three queue heads in category order from the cursor. -/
theorem roundRobin_selection_spec_witness :
    selectRoundRobin rrDemoFresh = (none, rrDemoFresh) ∧
    (selectRRTimes 3 rrFairDemo).1.get? 0 = some rrCu1 ∧
    (selectRRTimes 3 rrFairDemo).1.get? 1 = some rrCu3 ∧
    (selectRRTimes 3 rrFairDemo).1.get? 2 = some rrCu2 := by
  have h := roundRobin_selection_spec.2.2 rrFairDemo (by decide) (by decide)
    (by
      intro i hi
      have hi' : i < 3 := hi
      interval_cases i
      · exact ⟨rrCu1, [], rfl⟩
      · exact ⟨rrCu3, [], rfl⟩
      · exact ⟨rrCu2, [], rfl⟩)
  refine ⟨?_, ?_, ?_, ?_⟩
  · exact roundRobin_selection_spec.1 rrDemoFresh (by decide)
      (by
        intro st hst
        simp [rrDemoFresh, initState] at hst
        rcases hst with rfl | rfl | rfl <;> rfl)
  · exact (h.2 0 (by decide)).trans (by rfl)
  · exact (h.2 1 (by decide)).trans (by rfl)
  · exact (h.2 2 (by decide)).trans (by rfl)


/-! ### C4 — the occupancy invariant: completion-sweep characterization -/

theorem modifyAt_get? {α : Type} (l : List α) (i j : Nat) (f : α → α) :
    (modifyAt l i f).get? j = if j = i then (l.get? j).map f else l.get? j := by
  induction l generalizing i j with
  | nil =>
    simp only [modifyAt]
    split <;> rfl
  | cons x xs ih =>
    cases i with
    | zero =>
      cases j with
      | zero => simp [modifyAt]
      | succ j' => simp [modifyAt]
    | succ i' =>
      cases j with
      | zero => simp [modifyAt]
      | succ j' => simpa [modifyAt] using ih i' j'

theorem releaseServer_idem (bo : Booth) :
    bo.releaseServer.releaseServer = bo.releaseServer := rfl

theorem completeSweep_fst (t : ℚ) : ∀ (S : List Server) (B : List Booth),
    (completeSweep t S B).1 = S.map (stepServer t) := by
  intro S
  induction S with
  | nil => intro B; rfl
  | cons hd tl ih =>
    intro B
    rcases hst : hd.state <;> rcases hse : hd.serviceEndTime with _ | e <;>
      rcases hcc : hd.currentCustomer with _ | c <;>
        simp only [completeSweep, stepServer, List.map_cons, hst, hse, hcc, ih] <;>
          (try rfl) <;> (split <;> simp [ih])

theorem completeSweep_booths_cons (t : ℚ) (hd : Server) (tl : List Server)
    (B : List Booth) :
    (completeSweep t (hd :: tl) B).2.1 =
      (completeSweep t tl (headBooths t hd B)).2.1 := by
  rcases hst : hd.state <;> rcases hse : hd.serviceEndTime with _ | e <;>
    rcases hcc : hd.currentCustomer with _ | c <;>
      simp only [completeSweep, headBooths, hst, hse, hcc] <;>
        (try rfl) <;> (split <;> rfl)

theorem headBooths_get?_no (t : ℚ) (hd : Server) (B : List Booth) (b : Nat)
    (h : ¬ ReleasesBooth t hd b) :
    (headBooths t hd B).get? b = B.get? b := by
  rcases hst : hd.state <;> rcases hse : hd.serviceEndTime with _ | e <;>
    rcases hcc : hd.currentCustomer with _ | c <;>
      simp only [headBooths, hst, hse, hcc] <;> try rfl
  by_cases hle : e ≤ t
  · rw [if_pos hle]
    rcases hbid : hd.currentBoothId with _ | b'
    · rfl
    · have hbb : ¬ b = b' := fun he => h ⟨hst, e, c, hse, hcc, hle, he ▸ hbid⟩
      rw [modifyAt_get?, if_neg hbb]
  · rw [if_neg hle]

theorem headBooths_get?_rel (t : ℚ) (hd : Server) (B : List Booth) (b : Nat)
    (bo : Booth) (h : B.get? b = some bo) (hrel : ReleasesBooth t hd b) :
    (headBooths t hd B).get? b = some bo.releaseServer := by
  obtain ⟨hst, e, c, hse, hcc, hle, hbid⟩ := hrel
  simp only [headBooths, hst, hse, hcc, hbid, if_pos hle]
  rw [modifyAt_get?, if_pos rfl, h]
  rfl

theorem headBooths_get?_or (t : ℚ) (hd : Server) (B : List Booth) (b : Nat)
    (bo : Booth) (h : B.get? b = some bo) :
    (headBooths t hd B).get? b = some bo ∨
    (headBooths t hd B).get? b = some bo.releaseServer := by
  by_cases hrel : ReleasesBooth t hd b
  · exact Or.inr (headBooths_get?_rel t hd B b bo h hrel)
  · exact Or.inl ((headBooths_get?_no t hd B b hrel).trans h)

theorem completeSweep_booths_untouched (t : ℚ) : ∀ (S : List Server)
    (B : List Booth) (b : Nat),
    (∀ j sv, S.get? j = some sv → ¬ ReleasesBooth t sv b) →
    (completeSweep t S B).2.1.get? b = B.get? b := by
  intro S
  induction S with
  | nil => intro B b _; rfl
  | cons hd tl ih =>
    intro B b hno
    rw [completeSweep_booths_cons]
    rw [ih (headBooths t hd B) b (fun j sv hj => hno (j + 1) sv (by simpa using hj))]
    exact headBooths_get?_no t hd B b (hno 0 hd rfl)

theorem completeSweep_booths_or (t : ℚ) : ∀ (S : List Server) (B : List Booth)
    (b : Nat) (bo : Booth), B.get? b = some bo →
    (completeSweep t S B).2.1.get? b = some bo ∨
    (completeSweep t S B).2.1.get? b = some bo.releaseServer := by
  intro S
  induction S with
  | nil => intro B b bo h; exact Or.inl h
  | cons hd tl ih =>
    intro B b bo h
    rw [completeSweep_booths_cons]
    rcases headBooths_get?_or t hd B b bo h with h1 | h1
    · exact ih (headBooths t hd B) b bo h1
    · rcases ih (headBooths t hd B) b bo.releaseServer h1 with h2 | h2
      · exact Or.inr h2
      · rw [releaseServer_idem] at h2
        exact Or.inr h2

theorem completeSweep_booths_released (t : ℚ) : ∀ (S : List Server)
    (B : List Booth) (b : Nat) (bo : Booth), B.get? b = some bo →
    (∃ j sv, S.get? j = some sv ∧ ReleasesBooth t sv b) →
    (completeSweep t S B).2.1.get? b = some bo.releaseServer := by
  intro S
  induction S with
  | nil =>
    intro B b bo _ hex
    obtain ⟨j, sv, hj, _⟩ := hex
    simp at hj
  | cons hd tl ih =>
    intro B b bo h hex
    rw [completeSweep_booths_cons]
    by_cases hhd : ReleasesBooth t hd b
    · have hh := headBooths_get?_rel t hd B b bo h hhd
      rcases completeSweep_booths_or t tl (headBooths t hd B) b bo.releaseServer hh
        with h1 | h1
      · exact h1
      · rw [releaseServer_idem] at h1
        exact h1
    · have hh := (headBooths_get?_no t hd B b hhd).trans h
      obtain ⟨j, sv, hj, hrel⟩ := hex
      cases j with
      | zero =>
        have : sv = hd := by simpa using hj.symm
        exact absurd (this ▸ hrel) hhd
      | succ j' =>
        exact ih (headBooths t hd B) b bo hh ⟨j', sv, by simpa using hj, hrel⟩


theorem modifyAt_length {α : Type} : ∀ (l : List α) (i : Nat) (f : α → α),
    (modifyAt l i f).length = l.length := by
  intro l
  induction l with
  | nil => intro i f; rfl
  | cons x xs ih =>
    intro i f
    cases i with
    | zero => rfl
    | succ i' => simpa [modifyAt] using ih i' f

theorem headBooths_length (t : ℚ) (hd : Server) (B : List Booth) :
    (headBooths t hd B).length = B.length := by
  rcases hst : hd.state <;> rcases hse : hd.serviceEndTime with _ | e <;>
    rcases hcc : hd.currentCustomer with _ | c <;>
      simp only [headBooths, hst, hse, hcc] <;> (try rfl) <;>
        (split
         · rcases hd.currentBoothId with _ | b
           · rfl
           · exact modifyAt_length B b _
         · rfl)

theorem completeSweep_booths_length (t : ℚ) : ∀ (S : List Server)
    (B : List Booth), (completeSweep t S B).2.1.length = B.length := by
  intro S
  induction S with
  | nil => intro B; rfl
  | cons hd tl ih =>
    intro B
    rw [completeSweep_booths_cons, ih, headBooths_length]

theorem wf_completeSweep (t : ℚ) (S : List Server) (B : List Booth)
    (h : Wf S B) : Wf (completeSweep t S B).1 (completeSweep t S B).2.1 := by
  obtain ⟨hS, hB⟩ := h
  constructor
  · intro i sv' hget
    rw [completeSweep_fst, List.get?_map] at hget
    cases hg : S.get? i with
    | none => rw [hg] at hget; simp at hget
    | some sv =>
      rw [hg] at hget
      simp only [Option.map_some', Option.some.injEq] at hget
      subst hget
      have old := hS i sv hg
      obtain ⟨hid, hcase⟩ := old
      rcases hcase with ⟨hst, hc, hb, he⟩ | ⟨hst, hcs, hes, b, bo, hbid, hbo, hocc, hsid⟩
      · have hstep : stepServer t sv = sv := by simp [stepServer, hst]
        rw [hstep]
        exact ⟨hid, Or.inl ⟨hst, hc, hb, he⟩⟩
      · obtain ⟨e, hse⟩ := Option.isSome_iff_exists.mp hes
        obtain ⟨c, hcc⟩ := Option.isSome_iff_exists.mp hcs
        by_cases hle : e ≤ t
        · have hstep : stepServer t sv = (Server.finishService sv).2 := by
            simp [stepServer, hst, hse, hcc, hle]
          rw [hstep]
          exact ⟨hid, Or.inl ⟨rfl, rfl, rfl, rfl⟩⟩
        · have hstep : stepServer t sv = sv := by
            simp [stepServer, hst, hse, hcc, hle]
          rw [hstep]
          refine ⟨hid, Or.inr ⟨hst, hcs, hes, b, bo, hbid, ?_, hocc, hsid⟩⟩
          rw [completeSweep_booths_untouched t S B b ?_]
          · exact hbo
          · intro j svj hj hrel
            obtain ⟨hstj, e', c', hse', hcc', hle', hbid'⟩ := hrel
            have oldj := hS j svj hj
            rcases oldj.2 with ⟨hstj2, _, _, _⟩ |
              ⟨_, _, _, b2, bo2, hbid2, hbo2, hocc2, hsid2⟩
            · rw [hstj] at hstj2
              simp at hstj2
            · have hb2 : b2 = b := Option.some.inj (hbid2.symm.trans hbid')
              subst hb2
              have hbo2' : bo2 = bo := Option.some.inj (hbo2.symm.trans hbo)
              subst hbo2'
              have hij : i = j := Option.some.inj (hsid.symm.trans hsid2)
              subst hij
              have hsv : svj = sv := Option.some.inj (hj.symm.trans hg)
              subst hsv
              have he' : e' = e := Option.some.inj (hse'.symm.trans hse)
              exact hle (he' ▸ hle')
  · intro b bo' hget'
    have hben : b < B.length := by
      have h1 : b < (completeSweep t S B).2.1.length := by
        by_contra hcon
        rw [List.get?_eq_none.mpr (le_of_not_lt hcon)] at hget'
        cases hget'
      rwa [completeSweep_booths_length] at h1
    obtain ⟨bo, hbo⟩ : ∃ bo, B.get? b = some bo := by
      cases hBb : B.get? b with
      | none =>
        rw [List.get?_eq_none] at hBb
        exact absurd hben (not_lt.mpr hBb)
      | some bo => exact ⟨bo, rfl⟩
    by_cases hrel : ∃ j sv, S.get? j = some sv ∧ ReleasesBooth t sv b
    · have h1 := completeSweep_booths_released t S B b bo hbo hrel
      rw [h1] at hget'
      have hbo' : bo' = bo.releaseServer := (Option.some.inj hget').symm
      subst hbo'
      have old := hB b bo hbo
      refine ⟨old.1, ?_, fun _ => rfl⟩
      intro hocc
      exact absurd hocc (by simp [Booth.releaseServer])
    · have h1 := completeSweep_booths_untouched t S B b
        (fun j sv hj hr => hrel ⟨j, sv, hj, hr⟩)
      rw [h1] at hget'
      have hbo' : bo' = bo := Option.some.inj (hget'.symm.trans hbo)
      subst hbo'
      have old := hB b _ hbo
      refine ⟨old.1, ?_, old.2.2⟩
      intro hocc
      obtain ⟨j, svj, hj, hstj, hbidj, hsidj⟩ := old.2.1 hocc
      refine ⟨j, svj, ?_, hstj, hbidj, hsidj⟩
      rw [completeSweep_fst, List.get?_map, hj]
      have oldj := hS j svj hj
      rcases oldj.2 with ⟨hstj2, _, _, _⟩ | ⟨_, hcsj, hesj, bj, boj, hbidj2, _, _, _⟩
      · rw [hstj] at hstj2
        simp at hstj2
      · obtain ⟨ej, hsej⟩ := Option.isSome_iff_exists.mp hesj
        obtain ⟨cj, hccj⟩ := Option.isSome_iff_exists.mp hcsj
        have hnle : ¬ ej ≤ t := fun hle =>
          hrel ⟨j, svj, hj, hstj, ej, cj, hsej, hccj, hle, hbidj⟩
        simp [stepServer, hstj, hsej, hccj, hnle]

theorem wf_checkCompletedServices (s : SimState)
    (h : Wf s.servers s.booths) :
    Wf (checkCompletedServices s).servers (checkCompletedServices s).booths :=
  wf_completeSweep s.simulationTime s.servers s.booths h

theorem wf_initState (ns nb : Nat) (strat : DispatchStrategy)
    (times : Option (List (String × ℚ))) (accel : ℚ) (ab : Bool) :
    Wf (initState ns nb strat times accel ab).servers
      (initState ns nb strat times accel ab).booths := by
  constructor
  · intro i sv hget
    simp only [initState, List.get?_map] at hget
    cases hr : (List.range ns).get? i with
    | none => rw [hr] at hget; cases hget
    | some v =>
      have hlt : i < ns := by
        have h1 := List.get?_eq_some.mp hr
        simpa [List.length_range] using h1.1
      rw [List.get?_range hlt] at hr
      have hv : v = i := Option.some.inj hr.symm
      subst hv
      rw [List.get?_range hlt] at hget
      simp only [Option.map_some', Option.some.injEq] at hget
      subst hget
      exact ⟨rfl, Or.inl ⟨rfl, rfl, rfl, rfl⟩⟩
  · intro b bo hget
    simp only [initState, List.get?_map] at hget
    cases hr : (List.range nb).get? b with
    | none => rw [hr] at hget; cases hget
    | some v =>
      have hlt : b < nb := by
        have h1 := List.get?_eq_some.mp hr
        simpa [List.length_range] using h1.1
      rw [List.get?_range hlt] at hr
      have hv : v = b := Option.some.inj hr.symm
      subst hv
      rw [List.get?_range hlt] at hget
      simp only [Option.map_some', Option.some.injEq] at hget
      subst hget
      exact ⟨rfl, fun hocc => by simp at hocc, fun _ => rfl⟩

theorem wf_reset (s : SimState) (h : Wf s.servers s.booths) :
    Wf (reset s).servers (reset s).booths := by
  obtain ⟨hS, hB⟩ := h
  constructor
  · intro i sv' hget
    simp only [reset, List.get?_map] at hget
    cases hg : s.servers.get? i with
    | none => rw [hg] at hget; cases hget
    | some sv =>
      rw [hg] at hget
      simp only [Option.map_some', Option.some.injEq] at hget
      subst hget
      exact ⟨(hS i sv hg).1, Or.inl ⟨rfl, rfl, rfl, rfl⟩⟩
  · intro b bo' hget
    simp only [reset, List.get?_map] at hget
    cases hg : s.booths.get? b with
    | none => rw [hg] at hget; cases hget
    | some bo =>
      rw [hg] at hget
      simp only [Option.map_some', Option.some.injEq] at hget
      subst hget
      exact ⟨(hB b bo hg).1, fun hocc => by simp at hocc, fun _ => rfl⟩

theorem addCustomer_frame (s : SimState) (st : String) :
    (addCustomer s st).2.servers = s.servers ∧
    (addCustomer s st).2.booths = s.booths := by
  unfold addCustomer
  split <;> exact ⟨rfl, rfl⟩


theorem mem_availableServerIdx (servers : List Server) (i : Nat)
    (h : i ∈ availableServerIdx servers) :
    ∃ sv, servers.get? i = some sv ∧ sv.state = ServerState.spare := by
  unfold availableServerIdx at h
  rw [List.mem_map] at h
  obtain ⟨p, hp, rfl⟩ := h
  rw [List.mem_filter] at hp
  obtain ⟨hmem, hav⟩ := hp
  refine ⟨p.2, List.mem_enum_iff_get?.mp hmem, ?_⟩
  simpa [Server.isAvailable] using hav

theorem mem_availableBoothIdx (booths : List Booth) (b : Nat)
    (h : b ∈ availableBoothIdx booths) :
    ∃ bo, booths.get? b = some bo ∧ bo.occupied = false := by
  unfold availableBoothIdx at h
  rw [List.mem_map] at h
  obtain ⟨p, hp, rfl⟩ := h
  rw [List.mem_filter] at hp
  obtain ⟨hmem, hav⟩ := hp
  refine ⟨p.2, List.mem_enum_iff_get?.mp hmem, ?_⟩
  simpa [Booth.isAvailable] using hav

theorem nodup_availableServerIdx (servers : List Server) :
    (availableServerIdx servers).Nodup := by
  unfold availableServerIdx
  have h1 : ((servers.enum.filter (fun p => p.2.isAvailable)).map Prod.fst).Sublist
      (servers.enum.map Prod.fst) := (List.filter_sublist _).map _
  exact List.Nodup.sublist h1 (List.nodup_enum_map_fst _)

theorem nodup_availableBoothIdx (booths : List Booth) :
    (availableBoothIdx booths).Nodup := by
  unfold availableBoothIdx
  have h1 : ((booths.enum.filter (fun p => p.2.isAvailable)).map Prod.fst).Sublist
      (booths.enum.map Prod.fst) := (List.filter_sublist _).map _
  exact List.Nodup.sublist h1 (List.nodup_enum_map_fst _)

theorem wf_assign_step (S : List Server) (B : List Booth) (si bi : Nat)
    (sv0 : Server) (bo0 : Booth) (c' : Customer) (endT : ℚ)
    (hwf : Wf S B)
    (hsv0 : S.get? si = some sv0) (hsp0 : sv0.state = ServerState.spare)
    (hbo0 : B.get? bi = some bo0) (hoc0 : bo0.occupied = false) :
    Wf (modifyAt S si (fun v => Server.startService v c' bo0.boothId endT))
       (modifyAt B bi (fun b => Booth.assignServer b sv0.serverId)) := by
  have hid0 : sv0.serverId = si := (hwf.1 si sv0 hsv0).1
  have hbid0 : bo0.boothId = bi := (hwf.2 bi bo0 hbo0).1
  constructor
  · intro i sv' hget
    rw [modifyAt_get?] at hget
    by_cases hi : i = si
    · subst hi
      rw [if_pos rfl, hsv0] at hget
      simp only [Option.map_some', Option.some.injEq] at hget
      subst hget
      refine ⟨hid0, Or.inr ⟨rfl, rfl, rfl, bi, Booth.assignServer bo0 sv0.serverId,
        ?_, ?_, rfl, ?_⟩⟩
      · simp [Server.startService, hbid0]
      · rw [modifyAt_get?, if_pos rfl, hbo0]
        rfl
      · simp [Booth.assignServer, hid0]
    · rw [if_neg hi] at hget
      have old := hwf.1 i sv' hget
      obtain ⟨hid, hcase⟩ := old
      rcases hcase with ⟨hst, hc, hb, he⟩ |
        ⟨hst, hcs, hes, b, bo, hbid, hbo, hocc, hsid⟩
      · exact ⟨hid, Or.inl ⟨hst, hc, hb, he⟩⟩
      · refine ⟨hid, Or.inr ⟨hst, hcs, hes, b, bo, hbid, ?_, hocc, hsid⟩⟩
        have hbne : ¬ b = bi := by
          intro hbb
          subst hbb
          have : bo = bo0 := Option.some.inj (hbo.symm.trans hbo0)
          subst this
          rw [hocc] at hoc0
          cases hoc0
        rw [modifyAt_get?, if_neg hbne]
        exact hbo
  · intro b bo' hget
    rw [modifyAt_get?] at hget
    by_cases hb : b = bi
    · subst hb
      rw [if_pos rfl, hbo0] at hget
      simp only [Option.map_some', Option.some.injEq] at hget
      subst hget
      refine ⟨by simpa [Booth.assignServer] using hbid0, ?_, ?_⟩
      · intro _
        refine ⟨si, Server.startService sv0 c' bo0.boothId endT, ?_, rfl, ?_, ?_⟩
        · rw [modifyAt_get?, if_pos rfl, hsv0]
          rfl
        · simp [Server.startService, hbid0]
        · simp [Booth.assignServer, hid0]
      · intro hocc
        simp [Booth.assignServer] at hocc
    · rw [if_neg hb] at hget
      have old := hwf.2 b bo' hget
      refine ⟨old.1, ?_, old.2.2⟩
      intro hocc
      obtain ⟨j, svj, hj, hstj, hbidj, hsidj⟩ := old.2.1 hocc
      have hjne : ¬ j = si := by
        intro hjj
        subst hjj
        have : svj = sv0 := Option.some.inj (hj.symm.trans hsv0)
        subst this
        rw [hstj] at hsp0
        cases hsp0
      refine ⟨j, svj, ?_, hstj, hbidj, hsidj⟩
      rw [modifyAt_get?, if_neg hjne]
      exact hj

theorem wf_assignLoop : ∀ (aS aB : List Nat) (s : SimState) (draws : List ℚ),
    Wf s.servers s.booths →
    (∀ i ∈ aS, ∃ sv, s.servers.get? i = some sv ∧
      sv.state = ServerState.spare) →
    (∀ b ∈ aB, ∃ bo, s.booths.get? b = some bo ∧ bo.occupied = false) →
    aS.Nodup → aB.Nodup →
    Wf (assignLoop s draws aS aB).1.servers (assignLoop s draws aS aB).1.booths := by
  intro aS
  induction aS with
  | nil => intro aB s draws h _ _ _ _; exact h
  | cons si restS ih =>
    intro aB s draws hwf hS hB hndS hndB
    cases aB with
    | nil => exact hwf
    | cons bi restB =>
      simp only [assignLoop]
      split
      next c s' hsel =>
        have h2 : (selectNextCustomer s).2 = s' := by rw [hsel]
        have hf := selectNextCustomer_frame s
        rw [h2] at hf
        rw [hf.2.2.2.2.2.2.1, hf.2.2.2.2.2.2.2.1]
        exact hwf
      next c s' hsel =>
        have h2 : (selectNextCustomer s).2 = s' := by rw [hsel]
        have hf := selectNextCustomer_frame s
        rw [h2] at hf
        have hserv : s'.servers = s.servers := hf.2.2.2.2.2.2.1
        have hboo : s'.booths = s.booths := hf.2.2.2.2.2.2.2.1
        obtain ⟨sv0, hsv0, hsp0⟩ := hS si (List.mem_cons_self _ _)
        obtain ⟨bo0, hbo0, hoc0⟩ := hB bi (List.mem_cons_self _ _)
        have hsv0' : s'.servers.get? si = some sv0 := by rw [hserv]; exact hsv0
        have hbo0' : s'.booths.get? bi = some bo0 := by rw [hboo]; exact hbo0
        have hgetS : s'.servers.getD si default = sv0 := by
          rw [List.getD_eq_get?, hsv0']
          rfl
        have hgetB : s'.booths.getD bi default = bo0 := by
          rw [List.getD_eq_get?, hbo0']
          rfl
        rw [hgetS, hgetB]
        have hsi_not : si ∉ restS := (List.nodup_cons.mp hndS).1
        have hbi_not : bi ∉ restB := (List.nodup_cons.mp hndB).1
        apply ih restB _ _ ?_ ?_ ?_ (List.nodup_cons.mp hndS).2
          (List.nodup_cons.mp hndB).2
        · exact wf_assign_step s'.servers s'.booths si bi sv0 bo0 _ _
            (by rw [hserv, hboo]; exact hwf) hsv0' hsp0 hbo0' hoc0
        · intro i hi
          obtain ⟨sv, hsv, hsp⟩ := hS i (List.mem_cons_of_mem _ hi)
          refine ⟨sv, ?_, hsp⟩
          have hine : ¬ i = si := fun hii => hsi_not (hii ▸ hi)
          show (modifyAt s'.servers si _).get? i = some sv
          rw [modifyAt_get?, if_neg hine, hserv]
          exact hsv
        · intro b hb
          obtain ⟨bo, hbo, hoc⟩ := hB b (List.mem_cons_of_mem _ hb)
          refine ⟨bo, ?_, hoc⟩
          have hbne : ¬ b = bi := fun hbb => hbi_not (hbb ▸ hb)
          show (modifyAt s'.booths bi _).get? b = some bo
          rw [modifyAt_get?, if_neg hbne, hboo]
          exact hbo

theorem wf_assignServersToCustomers (s : SimState) (draws : List ℚ)
    (h : Wf s.servers s.booths) :
    Wf (assignServersToCustomers s draws).1.servers
      (assignServersToCustomers s draws).1.booths := by
  unfold assignServersToCustomers
  exact wf_assignLoop (availableServerIdx s.servers)
    (availableBoothIdx s.booths) s draws h
    (fun i hi => mem_availableServerIdx _ _ hi)
    (fun b hb => mem_availableBoothIdx _ _ hb)
    (nodup_availableServerIdx _) (nodup_availableBoothIdx _)

theorem wf_update (s : SimState) (now : ℚ) (draws : List ℚ)
    (h : Wf s.servers s.booths) :
    Wf (update s now draws).1.servers (update s now draws).1.booths := by
  unfold update
  cases hl : s.lastUpdateTime with
  | none => exact h
  | some last =>
    have h2 := wf_checkCompletedServices
      { s with simulationTime := s.simulationTime +
          (now - last) * s.timeAcceleration / 60, lastUpdateTime := some now } h
    by_cases hab : s.abandonmentEnabled <;>
      simp only [hab, if_true, if_false, Bool.false_eq_true] <;>
        exact wf_assignServersToCustomers _ _ h2

theorem wf_reachable (s : SimState) (h : Reachable s) :
    Wf s.servers s.booths := by
  induction h with
  | init ns nb strat times accel ab => exact wf_initState ns nb strat times accel ab
  | add s st _ ih =>
    rw [(addCustomer_frame s st).1, (addCustomer_frame s st).2]
    exact ih
  | step s now draws _ ih => exact wf_update s now draws ih
  | reset s _ ih => exact wf_reset s ih

/-- C4: in every reachable state, a server is Busy exactly when its customer
reference is set, exactly when its booth reference is set; a busy server's
booth is occupied with `serverId` equal to that server's id; and two servers
referencing the same booth are the same server, so the busy-server/occupied-
booth relation is one-to-one. -/
theorem occupancy_invariant (s : SimState) (h : Reachable s) :
    ∀ i sv, s.servers.get? i = some sv →
      ((sv.state = ServerState.busy ↔ sv.currentCustomer.isSome = true) ∧
       (sv.state = ServerState.busy ↔ sv.currentBoothId.isSome = true) ∧
       (∀ b, sv.currentBoothId = some b →
         ∃ bo, s.booths.get? b = some bo ∧ bo.occupied = true ∧
           bo.serverId = some sv.serverId) ∧
       (∀ j svj b, s.servers.get? j = some svj → sv.currentBoothId = some b →
         svj.currentBoothId = some b → i = j)) := by
  have hwf := wf_reachable s h
  intro i sv hget
  obtain ⟨hid, hcase⟩ := hwf.1 i sv hget
  have hbooth : ∀ b, sv.currentBoothId = some b →
      ∃ bo, s.booths.get? b = some bo ∧ bo.occupied = true ∧
        bo.serverId = some i := by
    intro b hb
    rcases hcase with ⟨_, _, hba, _⟩ | ⟨_, _, _, b2, bo, hbid, hbo, hocc, hsid⟩
    · rw [hba] at hb
      cases hb
    · have hb2 : b2 = b := Option.some.inj (hbid.symm.trans hb)
      subst hb2
      exact ⟨bo, hbo, hocc, hsid⟩
  refine ⟨?_, ?_, ?_, ?_⟩
  · constructor
    · intro hbusy
      rcases hcase with ⟨hsp, _, _, _⟩ | ⟨_, hcs, _, _⟩
      · rw [hbusy] at hsp
        cases hsp
      · exact hcs
    · intro hcs
      rcases hcase with ⟨_, hc, _, _⟩ | ⟨hst, _, _, _⟩
      · rw [hc] at hcs
        cases hcs
      · exact hst
  · constructor
    · intro hbusy
      rcases hcase with ⟨hsp, _, _, _⟩ | ⟨_, _, _, b, bo, hbid, _, _, _⟩
      · rw [hbusy] at hsp
        cases hsp
      · rw [hbid]
        rfl
    · intro hbs
      rcases hcase with ⟨_, _, hba, _⟩ | ⟨hst, _, _, _⟩
      · rw [hba] at hbs
        cases hbs
      · exact hst
  · intro b hb
    obtain ⟨bo, hbo, hocc, hsid⟩ := hbooth b hb
    exact ⟨bo, hbo, hocc, by rw [hid]; exact hsid⟩
  · intro j svj b hj hbi hbj
    obtain ⟨bo, hbo, hocc, hsid⟩ := hbooth b hbi
    obtain ⟨hidj, hcasej⟩ := hwf.1 j svj hj
    rcases hcasej with ⟨_, _, hbaj, _⟩ | ⟨_, _, _, b2, bo2, hbidj, hboj, hoccj, hsidj⟩
    · rw [hbaj] at hbj
      cases hbj
    · have hb2 : b2 = b := Option.some.inj (hbidj.symm.trans hbj)
      subst hb2
      have hbo2 : bo2 = bo := Option.some.inj (hboj.symm.trans hbo)
      subst hbo2
      exact Option.some.inj (hsid.symm.trans hsidj)

/-- C4, witness: the invariant instantiated at the reachable pre-run state
`rrDemoPreRun` (= `rrA3`), whose server 0 is busy at booth 0: the theorem
yields that booth 0 is occupied by server 0. -/
theorem occupancy_invariant_witness :
    ∃ bo, rrA3.booths.get? 0 = some bo ∧ bo.occupied = true ∧
      bo.serverId = some 0 := by
  have hr : Reachable rrDemoPreRun :=
    Reachable.step _ 0 [1/2] (Reachable.step _ 0 []
      (Reachable.add _ "standard_post"
        (Reachable.init 1 1 DispatchStrategy.roundRobin none 20 false)))
  rw [rrPreRun_eval] at hr
  have h := occupancy_invariant rrA3 hr 0
    ⟨0, ServerState.busy,
      some ⟨1, "standard_post", 0, 0, some 0, none, some 0, some 0, none⟩,
      some 0, some 2⟩ rfl
  exact h.2.2.1 0 rfl

end PoQueueSim
